import Mathlib

/-!
Verification model of the PlottingFramework plotting tools
(src/src/PlottingTools.cxx, src/inc/Plot.h).

The C++ code is shallowly embedded: doubles are modelled as rationals,
ROOT data objects (TH1, TGraph) and the pad primitive list as explicit
functional data, and backend facilities that the code only calls out to
(text measurement, box placement, object introspection) as oracle
parameters.  Content-level mutations of backing data objects that no
claim observes (Divide, Scale, normalization) are outside the modelled
state; CutHistogram and CutGraph, which claims do observe, are modelled
bin-by-bin and point-by-point.
-/

namespace PlottingFramework

/-! ## Substring utilities

std::string::find / erase / replace on the first occurrence of a
pattern, implemented structurally over the character list so that they
reduce in the kernel.
-/

/-- Whether the pattern list is a prefix of the list. -/
def listStartsWith : List Char → List Char → Bool
  | _, [] => true
  | [], _ :: _ => false
  | a :: s, b :: p => a = b && listStartsWith s p

/-- Index of the first occurrence of the pattern, as std::string::find. -/
def listFindSub : List Char → List Char → Option Nat
  | [], p => if p.isEmpty then some 0 else none
  | a :: s, p =>
    if listStartsWith (a :: s) p then some 0
    else (listFindSub s p).map (· + 1)

/-- `s.find(pat) != std::string::npos`. -/
def strContains (s pat : String) : Bool :=
  (listFindSub s.data pat.data).isSome

/-- `s.erase(s.find(pat), pat.length())` on the first occurrence. -/
def strEraseFirst (s pat : String) : String :=
  match listFindSub s.data pat.data with
  | none => s
  | some i => ⟨s.data.take i ++ s.data.drop (i + pat.data.length)⟩

/-- `s.replace(s.find(pat), pat.size(), repl)` on the first occurrence. -/
def strReplaceFirst (s pat repl : String) : String :=
  match listFindSub s.data pat.data with
  | none => s
  | some i => ⟨s.data.take i ++ repl.data ++ s.data.drop (i + pat.data.length)⟩

/-- `name.substr(0, name.find(sep))`: everything before the first
occurrence of the separator (the whole string when absent). -/
def stripAfter (s sep : String) : String :=
  match listFindSub s.data sep.data with
  | none => s
  | some i => ⟨s.data.take i⟩

/-! ## Histogram model and CutHistogram (PlottingTools.cxx 760-775) -/

/-- A 1-D ROOT histogram restricted to what CutHistogram touches: a
uniform x-axis with `nbins` bins between `xmin` and `xmax`, and
per-bin content and error indexed by the ROOT convention (bin 0 is
underflow, bins 1..nbins are real, bin nbins+1 is overflow). -/
structure TH1 where
  nbins : ℕ
  xmin : ℚ
  xmax : ℚ
  content : ℤ → ℚ
  error : ℤ → ℚ

/-- TAxis::FindBin for a uniform axis: 0 below range, nbins+1 at or
above the upper edge, else `1 + floor(nbins (x - xmin)/(xmax - xmin))`. -/
def TH1.FindBin (h : TH1) (x : ℚ) : ℤ :=
  if x < h.xmin then 0
  else if h.xmax ≤ x then (h.nbins : ℤ) + 1
  else 1 + Rat.floor ((h.nbins : ℚ) * (x - h.xmin) / (h.xmax - h.xmin))

/-- SetBinContent/SetBinError to 0 for every bin index in `[lo, hi]`. -/
def TH1.setBinsZero (h : TH1) (lo hi : ℤ) : TH1 :=
  { h with
    content := fun j => if lo ≤ j ∧ j ≤ hi then 0 else h.content j
    error := fun j => if lo ≤ j ∧ j ≤ hi then 0 else h.error j }

/-- PlottingTools::CutHistogram.  Mirrors the source exactly: an early
return when the high cutoff is below the -997 sentinel (which also
skips the low-side cut), then the high-side loop over
`[FindBin cutoff, nbins]`, an early return when the low cutoff is below
the sentinel, then the low-side loop over `[1, FindBin cutoffLow]`. -/
def CutHistogram (hist : TH1) (cutoff cutoffLow : ℚ) : TH1 :=
  if cutoff < -997 then hist
  else
    let h1 := hist.setBinsZero (hist.FindBin cutoff) hist.nbins
    if cutoffLow < -997 then h1
    else h1.setBinsZero 1 (h1.FindBin cutoffLow)

/-! ## Graph model and CutGraph (PlottingTools.cxx 785-816) -/

/-- TGraph::RemovePoint: removes the point at the given index when it
is in bounds, otherwise leaves the graph unchanged (ROOT returns -1). -/
def removePoint (ps : List (ℚ × ℚ)) (i : ℤ) : List (ℚ × ℚ) :=
  if 0 ≤ i ∧ i < (ps.length : ℤ) then ps.eraseIdx i.toNat else ps

/-- The loop `for(i..) graph->RemovePoint(graph->GetN()-1)`. -/
def removeLastK (ps : List (ℚ × ℚ)) : ℕ → List (ℚ × ℚ)
  | 0 => ps
  | k + 1 => removeLastK (removePoint ps ((ps.length : ℤ) - 1)) k

/-- The loop `for(i..) graph->RemovePoint(0)`. -/
def removeFirstK (ps : List (ℚ × ℚ)) : ℕ → List (ℚ × ℚ)
  | 0 => ps
  | k + 1 => removeFirstK (removePoint ps 0) k

/-- PlottingTools::CutGraph.  Counts, over the original points, those
above the high cutoff and those below the low cutoff (each side only
when its bound is at or above the -997 sentinel), then removes that
many points from the back and from the front respectively. -/
def CutGraph (ps : List (ℚ × ℚ)) (cutoff cutoffLow : ℚ) : List (ℚ × ℚ) :=
  let cutHigh := ¬ cutoff < -997
  let cutLow := ¬ cutoffLow < -997
  let pointsToRemoveHigh := (ps.filter (fun p => cutHigh ∧ cutoff < p.1)).length
  let pointsToRemoveLow := (ps.filter (fun p => cutLow ∧ p.1 < cutoffLow)).length
  removeFirstK (removeLastK ps pointsToRemoveHigh) pointsToRemoveLow

/-! ## Data display ranges and Ratio range setters (Plot.h 486-493) -/

/-- An optional (min, max) display range, `dataRange_t` of Plot.h. -/
structure DataRange where
  min : Option ℚ
  max : Option ℚ
deriving DecidableEq

/-- The part of `Plot::Pad::Data` the range setters act on: the X and Y
display-range clamps (`mRangeX`, `mRangeY` of Plot.h). -/
structure DataState where
  rangeX : DataRange
  rangeY : DataRange
deriving DecidableEq

/-- Modelled from the spec: `Data::UnsetRangeX` (declared at Plot.h 356,
body not in src) clears the X display-range clamp. -/
def DataState.UnsetRangeX (d : DataState) : DataState :=
  { d with rangeX := ⟨none, none⟩ }

/-- Modelled from the spec: `Data::UnsetRangeY` (declared at Plot.h 360,
body not in src) clears the Y display-range clamp. -/
def DataState.UnsetRangeY (d : DataState) : DataState :=
  { d with rangeY := ⟨none, none⟩ }

/-- `Ratio::UnsetRangeX` as written at Plot.h 489: it forwards to
`Data::UnsetRangeY`. -/
def Ratio.UnsetRangeX (d : DataState) : DataState :=
  DataState.UnsetRangeY d

/-- `Ratio::UnsetRangeY` (Plot.h 493): forwards to `Data::UnsetRangeY`. -/
def Ratio.UnsetRangeY (d : DataState) : DataState :=
  DataState.UnsetRangeY d

/-! ## The per-pad data loop (PlottingTools.cxx 90-268)

The loop over `plot.GetData(padID)` that resolves per-series colors and
marker styles from the style's cyclic default lists, builds the drawing
option string, and draws one primitive per series (plus the synthetic
reference line of a first 1-D ratio).  Pad primitives are modelled as
an ordered list in draw order; the content-level mutations applied to
the cloned data objects (CutHistogram, Divide, Scale, SetLineWidth,
UseCurrentStyle) act on backing data that no claim about this loop
observes and are modelled separately above.
-/

/-- One entry of a pad's list of drawn primitives, in draw order. -/
inductive Primitive where
  /-- A histogram drawn by the `hist` branch. -/
  | histP (name : String) (opts : String) (color style : ℤ)
  /-- A ratio histogram drawn by the `ratio` branch. -/
  | ratioP (name denom : String) (opts : String) (color style : ℤ)
  /-- A graph drawn by the `graph` branch. -/
  | graphP (name : String) (opts : String) (color style : ℤ)
  /-- The invisible clone drawn with option AXIS before a first 1-D
  ratio (its ROOT clone is named dummy). -/
  | dummyAxisP (name : String)
  /-- The flat TF1 reference line (formula, line color, line width)
  drawn with option SAME. -/
  | reflineP (formula : String) (color width : ℤ)
  /-- A TExec primitive toggling a global style register. -/
  | execP (cmd : String)
  /-- A temporary margin-exclusion TBox used by legend auto-placement. -/
  | marginBoxP (bx1 by1 bx2 by2 : ℚ)
  /-- A TLegend drawn by the box loop. -/
  | legendPrimP (index : ℕ)
  /-- A TPaveText drawn by the box loop, named TextBox_index. -/
  | textPrimP (index : ℕ)
deriving DecidableEq

/-- The style information consumed by the data loop.  `nPads` stands
for `GetNPads()` / the number of pad styles, `palette` for
`GetPallette()`. -/
structure PlotStyle where
  name : String
  nPads : ℕ
  palette : ℤ
  defaultColors : List ℤ
  defaultMarkers : List ℤ
  default2DStyle : String

/-- Modelled from the spec: `PlotStyle::GetDefaultColor` (not under
src) resolves the pad's cyclic default color list at the given index,
slot `i mod len`. -/
def PlotStyle.GetDefaultColor (st : PlotStyle) (i : ℤ) : ℤ :=
  st.defaultColors.getD (i % (st.defaultColors.length : ℤ)).toNat 0

/-- Modelled from the spec: `PlotStyle::GetDefaultMarker` (not under
src) resolves the cyclic default marker list at the given index. -/
def PlotStyle.GetDefaultMarker (st : PlotStyle) (i : ℤ) : ℤ :=
  st.defaultMarkers.getD (i % (st.defaultMarkers.length : ℤ)).toNat 0

/-- One element of `plot.GetData(padID)` together with the backend
facts the loop queries about its backing object: `color`/`style` are
`GetColor()`/`GetStyle()` with 0 playing the role of `unset` exactly as
in the C++ truthiness test, `is2D` is `InheritsFrom(TH2)`, `found`
(and `denomFound` for ratios) is whether `GetDataClone` succeeds. -/
structure SeriesSpec where
  type : String
  name : String
  denomName : String := ""
  color : ℤ := 0
  style : ℤ := 0
  drawingOptions : String := ""
  lable : String := ""
  is2D : Bool := false
  found : Bool := true
  denomFound : Bool := true
deriving DecidableEq

/-- The loop state of GeneratePlot's data loop: the running
`dataIndex` and `drawingOptions` variables, the pad's primitive list,
the `lables`/`legendEntries`/`errorStyles` triples collected for the
box loop, the pad view angles set for 2-D ratios, the global
number-of-contours register, and the error log. -/
structure LoopState where
  dataIndex : ℤ
  drawingOptions : String
  prims : List Primitive
  lables : List String
  legendEntries : List Primitive
  errorStyles : List String
  view : Option (ℚ × ℚ)
  nContours : Option ℤ
  log : List String
deriving DecidableEq

/-- The fixed viewing angles `SetTheta(49.5); SetPhi(230)` configured
for a 2-D ratio (PlottingTools.cxx 178-179). -/
def ratioViewAngles : ℚ × ℚ := (49.5, 230)

/-- The `continue` paths of the loop: the (possibly negative-color
shifted) dataIndex and the accumulated drawing options persist, the
error is logged, nothing is drawn. -/
def skipSeries (s : LoopState) (idx : ℤ) (opts : String) (msg : String) : LoopState :=
  { s with dataIndex := idx, drawingOptions := opts, log := s.log ++ [msg] }

/-- The common tail of a successful iteration (PlottingTools.cxx
260-267): `dataIndex++`, the options reset to EP SAME for the next
series, the newly drawn primitives appended, and for a labelled series
the label, the last drawn primitive and the raw drawing-option string
recorded for the legend. -/
def finishSeries (s : LoopState) (d : SeriesSpec) (idx : ℤ) (added : List Primitive)
    (mainPrim : Primitive) (nCont : Option ℤ) (view : Option (ℚ × ℚ)) : LoopState :=
  { dataIndex := idx + 1
    drawingOptions := "EP SAME"
    prims := s.prims ++ added ++ [mainPrim]
    lables := if d.lable = "" then s.lables else s.lables ++ [d.lable]
    legendEntries := if d.lable = "" then s.legendEntries else s.legendEntries ++ [mainPrim]
    errorStyles := if d.lable = "" then s.errorStyles else s.errorStyles ++ [d.drawingOptions]
    view := view
    nContours := nCont
    log := s.log }

/-- The `hist` branch of the data loop (PlottingTools.cxx 101-157),
given the already-resolved index, color, style and accumulated option
string. -/
def histBranch (st : PlotStyle) (s : LoopState) (d : SeriesSpec)
    (idx1 color1 style1 : ℤ) (opts0 : String) : LoopState :=
  if d.found = false then
    skipSeries s idx1 opts0 ("ERROR: " ++ d.name ++ " was not loaded.")
  else
    let opts1 := if d.is2D then opts0 ++ " " ++ st.default2DStyle else opts0
    let nCont1 : Option ℤ :=
      if d.is2D ∧ st.default2DStyle = "COLZ" then some 256 else s.nContours
    let opts2 := if strContains opts1 "none" then strEraseFirst opts1 "none" else opts1
    let stepped :=
      if strContains opts2 "hist" then (([] : List Primitive), opts2 ++ " HIST")
      else if strContains opts2 "band" then ([], strEraseFirst opts2 "band" ++ " E5")
      else if strContains opts2 "boxes" then
        ([Primitive.execP "errorBoxesOn", Primitive.execP "errorBoxesOff"],
          strEraseFirst opts2 "boxes" ++ " E2")
      else ([], opts2)
    finishSeries s d idx1 stepped.1 (Primitive.histP d.name stepped.2 color1 style1)
      nCont1 s.view

/-- The `ratio` branch of the data loop (PlottingTools.cxx 158-219):
for a 2-D ratio the option string gets the 2-D default suffix and the
fixed view angles are configured; for a 1-D ratio at dataIndex 0 the
invisible axis clone and the flat unit reference line are drawn first,
`dataIndex` is incremented and color/style re-resolved at the new
index before the ratio itself is drawn with an appended SAME. -/
def ratioBranch (st : PlotStyle) (s : LoopState) (d : SeriesSpec)
    (idx1 color1 style1 : ℤ) (opts0 : String) : LoopState :=
  if d.found = false ∨ d.denomFound = false then
    skipSeries s idx1 opts0 ("ERROR: missing data for ratio " ++ d.name)
  else if d.is2D then
    let opts1 := opts0 ++ " " ++ st.default2DStyle
    let stepped :=
      if strContains opts1 "boxes" then
        ([Primitive.execP "errorBoxesOn", Primitive.execP "errorBoxesOff"],
          strEraseFirst opts1 "boxes" ++ " E2")
      else (([] : List Primitive), opts1)
    finishSeries s d idx1 stepped.1
      (Primitive.ratioP d.name d.denomName stepped.2 color1 style1)
      s.nContours (some ratioViewAngles)
  else
    let pre : List Primitive :=
      if idx1 = 0 then [Primitive.dummyAxisP d.name, Primitive.reflineP "1" 1 2] else []
    let opts1 := if idx1 = 0 then opts0 ++ " SAME" else opts0
    let idx2 : ℤ := if idx1 = 0 then idx1 + 1 else idx1
    let color2 : ℤ :=
      if idx1 = 0 then (if d.color = 0 then st.GetDefaultColor idx2 else d.color) else color1
    let style2 : ℤ :=
      if idx1 = 0 then (if d.style = 0 then st.GetDefaultMarker idx2 else d.style) else style1
    let stepped :=
      if strContains opts1 "boxes" then
        ([Primitive.execP "errorBoxesOn", Primitive.execP "errorBoxesOff"],
          strEraseFirst opts1 "boxes" ++ " E2")
      else (([] : List Primitive), opts1)
    finishSeries s d idx2 (pre ++ stepped.1)
      (Primitive.ratioP d.name d.denomName stepped.2 color2 style2)
      s.nContours s.view

/-- The `graph` branch of the data loop (PlottingTools.cxx 220-254):
the boxes modifier replaces the whole option string by E2 SAME, and
the first series of the pad appends AP to request the axis frame. -/
def graphBranch (s : LoopState) (d : SeriesSpec)
    (idx1 color1 style1 : ℤ) (opts0 : String) : LoopState :=
  if d.found = false then
    skipSeries s idx1 opts0 ("ERROR: " ++ d.name ++ " was not loaded.")
  else
    let stepped :=
      if strContains opts0 "boxes" then
        ([Primitive.execP "errorBoxesOn", Primitive.execP "errorBoxesOff"], "E2 SAME")
      else (([] : List Primitive), opts0)
    let opts2 := if idx1 = 0 then stepped.2 ++ " AP" else stepped.2
    finishSeries s d idx1 stepped.1 (Primitive.graphP d.name opts2 color1 style1)
      s.nContours s.view

/-- One iteration of the data loop (PlottingTools.cxx 92-268).  The
color and style resolve to the explicit value when nonzero, else to
the cyclic default at `dataIndex`; a negative resolved color advances
`dataIndex` by that (negative) amount before re-resolving, and a
negative style re-resolves at the shifted index.  Then the branch for
the series kind builds the option string and draws. -/
def dataStep (st : PlotStyle) (s : LoopState) (d : SeriesSpec) : LoopState :=
  let color0 : ℤ := if d.color = 0 then st.GetDefaultColor s.dataIndex else d.color
  let style0 : ℤ := if d.style = 0 then st.GetDefaultMarker s.dataIndex else d.style
  let idx1 : ℤ := if color0 < 0 then s.dataIndex + color0 else s.dataIndex
  let color1 : ℤ := if color0 < 0 then st.GetDefaultColor idx1 else color0
  let style1 : ℤ := if style0 < 0 then st.GetDefaultMarker idx1 else style0
  let opts0 : String := s.drawingOptions ++ d.drawingOptions
  if d.type = "hist" then
    histBranch st s d idx1 color1 style1 opts0
  else if d.type = "ratio" then
    ratioBranch st s d idx1 color1 style1 opts0
  else if d.type = "graph" then
    graphBranch s d idx1 color1 style1 opts0
  else
    skipSeries s idx1 opts0 ("ERROR: no matching representation found for " ++ d.name)

/-- The initial loop state at the top of a pad's data loop. -/
def initLoopState (nCont : Option ℤ) : LoopState :=
  ⟨0, "", [], [], [], [], none, nCont, []⟩

/-- The whole data loop of one pad. -/
def runDataLoop (st : PlotStyle) (series : List SeriesSpec) : LoopState :=
  series.foldl (dataStep st) (initLoopState none)

/-- The primitives an uninterrupted run of clean unset-style histogram
series produces from cyclic-list index `i` on: one histogram per
series, drawn with the reset options EP SAME and consecutive default
slots. -/
def histPrimsFrom (st : PlotStyle) (i : ℤ) : List SeriesSpec → List Primitive
  | [] => []
  | d :: ds =>
    Primitive.histP d.name "EP SAME" (st.GetDefaultColor i) (st.GetDefaultMarker i)
      :: histPrimsFrom st (i + 1) ds

/-- The primitives an uninterrupted run of clean unset-style 1-D ratio
series (after the first) produces from index `i` on. -/
def ratioPrimsFrom (st : PlotStyle) (i : ℤ) : List SeriesSpec → List Primitive
  | [] => []
  | d :: ds =>
    Primitive.ratioP d.name d.denomName "EP SAME"
      (st.GetDefaultColor i) (st.GetDefaultMarker i)
      :: ratioPrimsFrom st (i + 1) ds

/-- The color a drawn data primitive was given (0 for non-data
primitives). -/
def primColorD : Primitive → ℤ
  | .histP _ _ c _ => c
  | .ratioP _ _ _ c _ => c
  | .graphP _ _ c _ => c
  | .reflineP _ c _ => c
  | _ => 0

/-- A histogram series with everything unset: resolved entirely from
the defaults, backing data present, 1-D, no label, no user options. -/
abbrev CleanHist (d : SeriesSpec) : Prop :=
  d.type = "hist" ∧ d.is2D = false ∧ d.found = true ∧
  d.color = 0 ∧ d.style = 0 ∧ d.drawingOptions = "" ∧ d.lable = ""

/-- A 1-D ratio series with everything unset. -/
abbrev CleanRatio1D (d : SeriesSpec) : Prop :=
  d.type = "ratio" ∧ d.is2D = false ∧ d.found = true ∧ d.denomFound = true ∧
  d.color = 0 ∧ d.style = 0 ∧ d.drawingOptions = "" ∧ d.lable = ""

/-- All entries of both cyclic default lists are nonnegative (as the
actual ROOT color and marker palettes are), so a default never
triggers the negative-value re-resolution. -/
abbrev NonnegDefaults (st : PlotStyle) : Prop :=
  (∀ c ∈ st.defaultColors, 0 ≤ c) ∧ (∀ m ∈ st.defaultMarkers, 0 ≤ m)

/-! ## MakeLegend (PlottingTools.cxx 466-679)

Legend sizing, label-token substitution, auto-placement with the four
temporary margin-exclusion boxes, and the per-entry draw styles.  The
backend facilities MakeLegend calls out to — TLatex text measurement,
TPad::PlaceBox, and introspection of the entry objects (GetTitle and
the TH1 statistics) — are oracle parameters.
-/

/-- Modelled from the spec: the reserved separator joining a series
name and its input identifier into the global unique key (defined in
PlottingFramework.h, which is not under src). -/
def gNameGroupSeparator : String := "_IN_"

/-- `GetName()` of a drawn primitive: data primitives keep their
unique name, the dummy axis clone is named dummy (`Clone("dummy")`),
the reference line TF1 is named line, the TExecs carry their name. -/
def Primitive.getName : Primitive → String
  | .histP n _ _ _ => n
  | .ratioP n _ _ _ _ => n
  | .graphP n _ _ _ => n
  | .dummyAxisP _ => "dummy"
  | .reflineP _ _ _ => "line"
  | .execP c => c
  | _ => ""

/-- `InheritsFrom(TH1::Class())` for a drawn primitive. -/
def Primitive.inheritsTH1 : Primitive → Bool
  | .histP _ _ _ _ => true
  | .ratioP _ _ _ _ _ => true
  | .dummyAxisP _ => true
  | _ => false

/-- `InheritsFrom("TF1")` for a drawn primitive: only the flat
reference line is a TF1. -/
def Primitive.inheritsTF1 : Primitive → Bool
  | .reflineP _ _ _ => true
  | _ => false

/-- The introspected strings of a legend entry object used by the
label-token substitution: GetTitle, and stringified GetEntries,
Integral, GetMean, GetMaximum, GetMinimum. -/
structure LegendStats where
  title : String
  entriesStr : String
  integralStr : String
  meanStr : String
  maxStr : String
  minStr : String

/-- The pad-geometry and global-style quantities MakeLegend queries
from the backend: NDC frame (x1, x2, y1, y2), user-coordinate axis
range (uxmin, uxmax, uymin, uymax), the global tick lengths for the X
and Y axes, and the pad size in pixels (XtoPixel(X2), YtoPixel(Y1)). -/
structure PadGeom where
  x1 : ℚ
  x2 : ℚ
  y1 : ℚ
  y2 : ℚ
  uxmin : ℚ
  uxmax : ℚ
  uymin : ℚ
  uymax : ℚ
  tickX : ℚ
  tickY : ℚ
  padWidthPixel : ℤ
  padHeightPixel : ℤ
deriving DecidableEq

/-- The backend oracles: TLatex bounding-box measurement (width,
height in pixels), TPad::PlaceBox (a free lower-left position for a
box of the given NDC size, or none), entry-object introspection, and
the per-pad geometry. -/
structure Backend where
  measure : String → ℕ × ℕ
  placeBox : Primitive → ℚ → ℚ → Option (ℚ × ℚ)
  stats : Primitive → LegendStats
  padGeom : ℕ → PadGeom

/-- The fields of `Plot::LegendBox` that MakeLegend reads: title (an
empty string plays the role of the unset optional), number of
columns, the optional position (auto-placement iff either coordinate
is unset) and the user-coordinate flag. -/
structure LegendBoxSpec where
  title : String := ""
  nColumns : ℕ := 1
  x : Option ℚ := none
  y : Option ℚ := none
  userCoord : Bool := false
deriving DecidableEq

/-- The in-place label-token substitution of MakeLegend
(PlottingTools.cxx 492-533): each token is replaced (first occurrence)
when present, the TH1-statistics tokens only when the entry object is
a TH1; the entry argument is `legendEntries[iLegend-1]` (out of range
only for a title row containing tokens, which no caller produces;
modelled as the identity there). -/
def substLegendText (be : Backend) (e : Option Primitive) (t0 : String) : String :=
  match e with
  | none => t0
  | some e =>
    let t1 := if strContains t0 "<name>" then
        strReplaceFirst t0 "<name>" (stripAfter e.getName gNameGroupSeparator) else t0
    let t2 := if strContains t1 "<title>" then
        strReplaceFirst t1 "<title>" (be.stats e).title else t1
    let t3 := if strContains t2 "<entries>" && e.inheritsTH1 then
        strReplaceFirst t2 "<entries>" (be.stats e).entriesStr else t2
    let t4 := if strContains t3 "<integral>" && e.inheritsTH1 then
        strReplaceFirst t3 "<integral>" (be.stats e).integralStr else t3
    let t5 := if strContains t4 "<mean>" && e.inheritsTH1 then
        strReplaceFirst t4 "<mean>" (be.stats e).meanStr else t4
    let t6 := if strContains t5 "<maximum>" && e.inheritsTH1 then
        strReplaceFirst t5 "<maximum>" (be.stats e).maxStr else t5
    let t7 := if strContains t6 "<minimum>" && e.inheritsTH1 then
        strReplaceFirst t6 "<minimum>" (be.stats e).minStr else t6
    t7

/-- The running state of the legend sizing loop (PlottingTools.cxx
483-551): current column, 1-based row counter, maximum measured
height, per-column maximum widths, measured title width, and the
substituted titles (the mutated legendTitles vector). -/
structure SizingState where
  iColumn : ℕ
  iLegend : ℕ
  heightMax : ℕ
  widthPerCol : List ℕ
  titleWidth : ℕ
  outTitles : List String

/-- One iteration of the sizing loop over the legend titles. -/
def sizingStep (be : Backend) (lbox : LegendBoxSpec) (entries : List Primitive)
    (total : ℕ) (s : SizingState) (t : String) : SizingState :=
  let t' := substLegendText be (entries.get? (s.iLegend - 1)) t
  let wh := be.measure t'
  let hM := max s.heightMax wh.2
  if lbox.title ≠ "" ∧ s.iLegend = total then
    { s with heightMax := hM, titleWidth := wh.1, outTitles := s.outTitles ++ [t'] }
  else
    { iColumn := (s.iColumn + 1) % lbox.nColumns
      iLegend := s.iLegend + 1
      heightMax := hM
      widthPerCol := s.widthPerCol.set s.iColumn
        (max (s.widthPerCol.getD s.iColumn 0) wh.1)
      titleWidth := s.titleWidth
      outTitles := s.outTitles ++ [t'] }

/-- The entry loop of MakeLegend (PlottingTools.cxx 646-658): one
(label, draw style) pair per entry object, `l` when the object is a
TF1 or the recorded per-series drawing-option string equals hist,
`ep` otherwise; the label is the substituted title at the same index.
The index argument threads the running counter `i`. -/
def buildEntries : List Primitive → ℕ → List String → List String
    → List (String × String)
  | [], _, _, _ => []
  | e :: es, i, ts, errs =>
    (ts.getD i "",
      if e.inheritsTF1 || errs.getD i "" == "hist" then "l" else "ep")
      :: buildEntries es (i + 1) ts errs

/-- The auto-placement margin along x (PlottingTools.cxx 583): 90% of
the Y-axis tick length converted to the pad's NDC width. -/
def marginXOf (geom : PadGeom) : ℚ :=
  (9 / 10) * geom.tickY * (geom.uxmax - geom.uxmin) / (geom.x2 - geom.x1)

/-- The auto-placement margin along y (PlottingTools.cxx 584). -/
def marginYOf (geom : PadGeom) : ℚ :=
  (9 / 10) * geom.tickX * (geom.uymax - geom.uymin) / (geom.y2 - geom.y1)

/-- The four temporary margin-exclusion TBoxes drawn on the pad during
auto-placement (PlottingTools.cxx 588-595), in draw order: bottom,
top, left, right. -/
def marginBoxes (geom : PadGeom) : List Primitive :=
  [Primitive.marginBoxP geom.x1 geom.y1 geom.x2
      (geom.uymin + geom.tickX * (geom.uymax - geom.uymin)),
    Primitive.marginBoxP geom.x1
      (geom.uymax - geom.tickX * (geom.uymax - geom.uymin)) geom.x2 geom.y2,
    Primitive.marginBoxP geom.x1 geom.y1
      (geom.uxmin + geom.tickY * (geom.uxmax - geom.uxmin)) geom.y2,
    Primitive.marginBoxP (geom.uxmax - geom.tickY * (geom.uxmax - geom.uxmin))
      geom.y1 geom.x2 geom.y2]

/-- The placement loop (PlottingTools.cxx 598-601): one PlaceBox query
per drawn primitive; the found flag and the out-parameters are
overwritten on every iteration, so only the last query decides. -/
def placeSearch (be : Backend) (w h : ℚ) (prims : List Primitive) : Bool × ℚ × ℚ :=
  prims.foldl
    (fun acc o =>
      match be.placeBox o w h with
      | some xy => (true, xy.1, xy.2)
      | none => (false, acc.2.1, acc.2.2))
    (false, 0, 0)

/-- The deterministic fallback x position (PlottingTools.cxx 610):
the NDC position of the left axis edge inset by the margin plus one
full tick length, `(1 + 1/0.9) * marginX`. -/
def fallbackX (geom : PadGeom) : ℚ :=
  (geom.uxmin - geom.x1) / (geom.x2 - geom.x1) + (1 + 1 / (9 / 10)) * marginXOf geom

/-- The deterministic fallback y position (PlottingTools.cxx 611). -/
def fallbackY (geom : PadGeom) : ℚ :=
  (geom.uymax - geom.y1) / (geom.y2 - geom.y1) - (1 + 1 / (9 / 10)) * marginYOf geom

/-- `pad->GetListOfPrimitives()->Remove(&box)` for each margin box in
order (PlottingTools.cxx 628-631): each removes the first matching
occurrence. -/
def eraseBoxes : List Primitive → List Primitive → List Primitive
  | l, [] => l
  | l, b :: bs => eraseBoxes (l.erase b) bs

/-- The outcome of MakeLegend: the TLegend NDC rectangle
(x1, y1, x2, y2), the header, the (label, draw style) entries, the
placement-warning flag, the pad primitive list after the temporary
boxes are removed, the computed total NDC size, and the substituted
titles. -/
structure LegendResult where
  rx1 : ℚ
  ry1 : ℚ
  rx2 : ℚ
  ry2 : ℚ
  header : Option String
  entries : List (String × String)
  warned : Bool
  padPrims : List Primitive
  totalWidthNDC : ℚ
  totalHeightNDC : ℚ
  substTitles : List String
deriving DecidableEq

/-- The full title list walked by the sizing loop: the box title, when
non-empty, is appended after the entry labels (PlottingTools.cxx
489-492). -/
def titlesAllOf (lbox : LegendBoxSpec) (legendTitles : List String) : List String :=
  if lbox.title ≠ "" then legendTitles ++ [lbox.title] else legendTitles

/-- The complete sizing loop over all titles. -/
def sizingOf (be : Backend) (lbox : LegendBoxSpec) (legendEntries : List Primitive)
    (legendTitles : List String) : SizingState :=
  (titlesAllOf lbox legendTitles).foldl
    (sizingStep be lbox legendEntries (titlesAllOf lbox legendTitles).length)
    ⟨0, 1, 0, List.replicate lbox.nColumns 0, 0, []⟩

/-- The number of legend rows: the entries plus one for a non-empty
title. -/
def nEntriesOf (lbox : LegendBoxSpec) (legendEntries : List Primitive) : ℕ :=
  if lbox.title ≠ "" then legendEntries.length + 1 else legendEntries.length

/-- The total legend height in NDC (PlottingTools.cxx 540):
`(nEntries + 0.5 (nEntries + 1)) * legendHeightNDC / nColumns`. -/
def legendTotalHeightNDC (be : Backend) (geom : PadGeom) (lbox : LegendBoxSpec)
    (legendEntries : List Primitive) (legendTitles : List String) : ℚ :=
  ((nEntriesOf lbox legendEntries : ℚ)
      + (1 / 2) * ((nEntriesOf lbox legendEntries : ℚ) + 1))
    * (((sizingOf be lbox legendEntries legendTitles).heightMax : ℚ)
        / (geom.padHeightPixel : ℚ))
    / (lbox.nColumns : ℚ)

/-- The total legend width in NDC (PlottingTools.cxx 541-546): the
title width overrides when it exceeds the summed column widths. -/
def legendTotalWidthNDC (be : Backend) (geom : PadGeom) (lbox : LegendBoxSpec)
    (legendEntries : List Primitive) (legendTitles : List String) : ℚ :=
  if (sizingOf be lbox legendEntries legendTitles).titleWidth >
      (sizingOf be lbox legendEntries legendTitles).widthPerCol.foldl (· + ·) 0 then
    (3333 / 10000) * (((be.measure "AAA").1 : ℚ) / (geom.padWidthPixel : ℚ))
      + (((sizingOf be lbox legendEntries legendTitles).titleWidth : ℚ)
          / (geom.padWidthPixel : ℚ))
  else
    ((lbox.nColumns : ℚ) + 3333 / 10000)
        * (((be.measure "AAA").1 : ℚ) / (geom.padWidthPixel : ℚ))
      + ((((sizingOf be lbox legendEntries legendTitles).widthPerCol.foldl
            (· + ·) 0 : ℕ) : ℚ) / (geom.padWidthPixel : ℚ))

/-- The placement search run during auto-placement, over the pad
primitives with the four temporary margin boxes appended
(PlottingTools.cxx 588-601). -/
def legendAutoSearch (be : Backend) (geom : PadGeom) (lbox : LegendBoxSpec)
    (padPrims : List Primitive) (legendEntries : List Primitive)
    (legendTitles : List String) : Bool × ℚ × ℚ :=
  placeSearch be
    (legendTotalWidthNDC be geom lbox legendEntries legendTitles + 2 * marginXOf geom)
    (legendTotalHeightNDC be geom lbox legendEntries legendTitles + 2 * marginYOf geom)
    (padPrims ++ marginBoxes geom)

/-- PlottingTools::MakeLegend.  Sizing from measured text, then
auto-placement (with the four temporary margin boxes and the fallback
position when no free spot is found), or user-coordinate conversion,
then the TLegend rectangle and its entries. -/
def MakeLegendModel (be : Backend) (geom : PadGeom) (lbox : LegendBoxSpec)
    (padPrims : List Primitive) (legendEntries : List Primitive)
    (legendTitles : List String) (errorStyles : List String) : LegendResult :=
  let sz := sizingOf be lbox legendEntries legendTitles
  let totalHeightNDC := legendTotalHeightNDC be geom lbox legendEntries legendTitles
  let totalWidthNDC := legendTotalWidthNDC be geom lbox legendEntries legendTitles
  let mX := marginXOf geom
  let mY := marginYOf geom
  let placed :=
    if lbox.x.isNone || lbox.y.isNone then
      let prims2 := padPrims ++ marginBoxes geom
      let sr := legendAutoSearch be geom lbox padPrims legendEntries legendTitles
      let pOut := eraseBoxes prims2 (marginBoxes geom)
      if sr.1 then
        (false, sr.2.1 + 2 * mX, sr.2.2 + totalHeightNDC + 2 * mY, pOut)
      else
        (true, fallbackX geom, fallbackY geom, pOut)
    else if lbox.userCoord then
      (false, (lbox.x.getD 0 - geom.x1) / (geom.x2 - geom.x1),
        (lbox.y.getD 0 - geom.y1) / (geom.y2 - geom.y1), padPrims)
    else
      (false, lbox.x.getD 0, lbox.y.getD 0, padPrims)
  { rx1 := placed.2.1
    ry1 := placed.2.2.1 - totalHeightNDC
    rx2 := placed.2.1 + totalWidthNDC
    ry2 := placed.2.2.1
    header := if lbox.title ≠ "" then some lbox.title else none
    entries := buildEntries legendEntries 0 sz.outTitles errorStyles
    warned := placed.1
    padPrims := placed.2.2.2
    totalWidthNDC := totalWidthNDC
    totalHeightNDC := totalHeightNDC
    substTitles := sz.outTitles }

/-- The cyclic default slots `[i, i+1, ..., i+n-1]` of the color list. -/
def defaultColorsFrom (st : PlotStyle) (i : ℤ) (n : ℕ) : List ℤ :=
  (List.range n).map (fun j : ℕ => st.GetDefaultColor (i + (j : ℤ)))

/-- A box in a pad's box list (Plot::GetBoxes): a legend box or a
text box. -/
inductive BoxSpec where
  /-- A Plot::LegendBox. -/
  | legendB (spec : LegendBoxSpec)
  /-- A Plot::TextBox with its text. -/
  | textB (text : String)

/-- Whether a box has `GetType() == "legend"`. -/
def BoxSpec.isLegend : BoxSpec → Bool
  | .legendB _ => true
  | .textB _ => false

/-- The box-placing loop of GeneratePlot (PlottingTools.cxx 300-332)
over one pad's box list, carrying the pad primitive list and the
running legendIndex / textIndex counters.  A legend box runs
MakeLegend and draws the TLegend named LegendBox_legendIndex — unless
the collected label list is empty, in which case the loop breaks; a
text box draws the TPaveText named TextBox_textIndex. -/
def processBoxes (be : Backend) (geom : PadGeom) (lables : List String)
    (legendEntries : List Primitive) (errorStyles : List String) :
    List BoxSpec → List Primitive → ℕ → ℕ → List Primitive
  | [], prims, _, _ => prims
  | BoxSpec.legendB lb :: bs, prims, li, ti =>
    if lables.isEmpty then prims
    else
      processBoxes be geom lables legendEntries errorStyles bs
        ((MakeLegendModel be geom lb prims legendEntries lables errorStyles).padPrims
          ++ [Primitive.legendPrimP li]) (li + 1) ti
  | BoxSpec.textB _ :: bs, prims, li, ti =>
    processBoxes be geom lables legendEntries errorStyles bs
      (prims ++ [Primitive.textPrimP ti]) li (ti + 1)

/-- The mutated global style registers of a GeneratePlot run:
`gStyle->SetOptStat` (PlottingTools.cxx 37). -/
structure Globals where
  optStat : ℤ
deriving DecidableEq

/-- The plot description consumed by GeneratePlot: its unique name,
`GetNumRequiredPads()`, and the per-pad series list. -/
structure PlotModel where
  name : String
  requiredPads : ℕ
  data : ℕ → List SeriesSpec

/-- The pad-count mismatch report (PlottingTools.cxx 29-31). -/
def mismatchMsg (st : PlotStyle) (p : PlotModel) : String :=
  "ERROR: Number of pads in style " ++ st.name
    ++ " does not match the number of pads needed for plotting " ++ p.name ++ "."

/-- The top level of PlottingTools::GeneratePlot (PlottingTools.cxx
24-37): if the style provides fewer pads than the plot requires, the
run aborts before the canvas is created — nullptr result, exactly one
error report, the global style registers untouched.  Otherwise the
canvas named after the plot is produced, its pads filled by the data
loop, and `gStyle->SetOptStat(0)` is applied. -/
def GeneratePlot (st : PlotStyle) (p : PlotModel) (g : Globals) :
    Option (String × List (List Primitive)) × List String × Globals :=
  if st.nPads < p.requiredPads then (none, [mismatchMsg st p], g)
  else
    (some (p.name,
        (List.range p.requiredPads).map (fun i => (runDataLoop st (p.data i)).prims)),
      (List.range p.requiredPads).foldl
        (fun acc i => acc ++ (runDataLoop st (p.data i)).log) [],
      { optStat := 0 })

/-- A concrete style with color list [10, 20, 30, 40] and marker list
[3, 4, 5, 6]. -/
def exStyle : PlotStyle :=
  { name := "st", nPads := 1, palette := 1, defaultColors := [10, 20, 30, 40],
    defaultMarkers := [3, 4, 5, 6], default2DStyle := "COLZ" }

/-- Series A: a plain histogram with no explicit style. -/
def sA : SeriesSpec := { type := "hist", name := "A" }

/-- Series B: a histogram with the explicit negative color -1. -/
def sB : SeriesSpec := { type := "hist", name := "B", color := -1 }

/-- Series C: a plain histogram with no explicit style. -/
def sC : SeriesSpec := { type := "hist", name := "C" }

/-- A clean 1-D ratio series. -/
def exR0 : SeriesSpec := { type := "ratio", name := "num", denomName := "den" }

/-- A second clean 1-D ratio series. -/
def exR1 : SeriesSpec := { type := "ratio", name := "num2", denomName := "den2" }

/-- A clean 2-D ratio series. -/
def exR2D : SeriesSpec := { type := "ratio", name := "n2", denomName := "d2", is2D := true }

/-- A concrete pad geometry: unit NDC frame, axis range [0.1, 0.9] in
both directions, tick length 0.03, 800 x 600 pixels. -/
def exGeom : PadGeom :=
  { x1 := 0, x2 := 1, y1 := 0, y2 := 1, uxmin := 1 / 10, uxmax := 9 / 10,
    uymin := 1 / 10, uymax := 9 / 10, tickX := 3 / 100, tickY := 3 / 100,
    padWidthPixel := 800, padHeightPixel := 600 }

/-- A concrete backend whose text measurement always returns 30 x 12
pixels, whose box-fitting query never finds a spot, and with constant
introspection strings. -/
def exBackend : Backend :=
  { measure := fun _ => (30, 12)
    placeBox := fun _ _ _ => none
    stats := fun _ => ⟨"title", "10", "1.5", "0.5", "2.0", "0.1"⟩
    padGeom := fun _ => exGeom }

/-- A legend box with an explicit NDC position (no auto-placement). -/
def exLegendFixed : LegendBoxSpec :=
  { title := "", nColumns := 1, x := some (1 / 2), y := some (1 / 2), userCoord := false }

/-- A legend box with no position: auto-placement. -/
def exLegendAuto : LegendBoxSpec :=
  { title := "", nColumns := 1, x := none, y := none, userCoord := false }

/-- A concrete two-bin histogram with unit content and error. -/
def exHist : TH1 :=
  { nbins := 2, xmin := 0, xmax := 2, content := fun _ => 1, error := fun _ => 1 }

/-- A concrete three-bin histogram with content 7 and error 3 in every bin. -/
def exHist2 : TH1 :=
  { nbins := 3, xmin := 0, xmax := 3, content := fun _ => 7, error := fun _ => 3 }

/-! # Theorems -/

/-! ## Helper lemmas about list surgery -/

theorem removeLastK_eq_take : ∀ (k : ℕ) (ps : List (ℚ × ℚ)),
    removeLastK ps k = ps.take (ps.length - k) := by
  intro k
  induction k with
  | zero => intro ps; simp [removeLastK]
  | succ k ih =>
    intro ps
    rw [removeLastK]
    cases ps with
    | nil =>
      rw [show removePoint [] ((List.length ([] : List (ℚ × ℚ)) : ℤ) - 1) = [] from rfl]
      simpa using ih []
    | cons a l =>
      have hlen : 0 < (a :: l).length := by simp
      have hcond : 0 ≤ ((a :: l).length : ℤ) - 1 ∧
          ((a :: l).length : ℤ) - 1 < ((a :: l).length : ℤ) := by
        constructor <;> omega
      have htn : (((a :: l).length : ℤ) - 1).toNat = (a :: l).length - 1 := by omega
      have herase : removePoint (a :: l) (((a :: l).length : ℤ) - 1)
          = (a :: l).take ((a :: l).length - 1) := by
        rw [removePoint, if_pos hcond, htn, List.eraseIdx_eq_take_drop_succ]
        have : (a :: l).length - 1 + 1 = (a :: l).length := by omega
        rw [this, List.drop_length, List.append_nil]
      rw [herase, ih]
      rw [List.length_take]
      rw [List.take_take]
      congr 1
      omega

theorem removeFirstK_eq_drop : ∀ (k : ℕ) (ps : List (ℚ × ℚ)),
    removeFirstK ps k = ps.drop k := by
  intro k
  induction k with
  | zero => intro ps; simp [removeFirstK]
  | succ k ih =>
    intro ps
    rw [removeFirstK]
    cases ps with
    | nil =>
      rw [show removePoint [] 0 = [] from rfl]
      simpa using ih []
    | cons a l =>
      have : removePoint (a :: l) 0 = l := by
        rw [removePoint, if_pos ⟨le_refl 0, by simp⟩]
        rfl
      rw [this, ih]
      rfl

/-! ## C2: CutHistogram -/

theorem setBinsZero_content (h : TH1) (lo hi j : ℤ) :
    (h.setBinsZero lo hi).content j = if lo ≤ j ∧ j ≤ hi then 0 else h.content j := rfl

theorem setBinsZero_error (h : TH1) (lo hi j : ℤ) :
    (h.setBinsZero lo hi).error j = if lo ≤ j ∧ j ≤ hi then 0 else h.error j := rfl

theorem FindBin_setBinsZero (h : TH1) (lo hi : ℤ) (x : ℚ) :
    (h.setBinsZero lo hi).FindBin x = h.FindBin x := rfl

/-- C2, counterexample.  The claim asserts that an enabled low bound
zeroes every bin at or before the bin containing it *independently* of
the high bound.  With the high bound disabled (below the -997
sentinel) and the low bound 5 enabled (bin containing 5 is the
overflow bin 3, so bin 1 is at or before it), the source returns
before the low-side loop runs and bin 1 keeps its content 1. -/
theorem c2_counterexample :
    ¬ ((5 : ℚ) < -997) ∧
    (1 : ℤ) ≤ exHist.FindBin 5 ∧
    (CutHistogram exHist (-1000) 5).content 1 = 1 ∧
    ¬ (CutHistogram exHist (-1000) 5).content 1 = 0 := by
  refine ⟨by decide, by decide, by decide, by decide⟩

/-- C2 (amended): when the high bound is below the sentinel the
function returns immediately and nothing (not even an enabled low
side) is cut; when the high bound is enabled, every bin from the bin
containing `cutoff` through `nbins` is zeroed, an enabled low bound
additionally zeroes every bin at or before the bin containing
`cutoffLow`, and with the low bound disabled every bin strictly before
the bin containing `cutoff` keeps its original content and error. -/
theorem c2_amended (h : TH1) (hi lo : ℚ) :
    (hi < -997 → CutHistogram h hi lo = h) ∧
    (¬ hi < -997 →
      (∀ i : ℤ, h.FindBin hi ≤ i → i ≤ (h.nbins : ℤ) →
        (CutHistogram h hi lo).content i = 0 ∧ (CutHistogram h hi lo).error i = 0) ∧
      (¬ lo < -997 → ∀ i : ℤ, 1 ≤ i → i ≤ h.FindBin lo →
        (CutHistogram h hi lo).content i = 0 ∧ (CutHistogram h hi lo).error i = 0) ∧
      (lo < -997 → ∀ i : ℤ, i < h.FindBin hi →
        (CutHistogram h hi lo).content i = h.content i ∧
        (CutHistogram h hi lo).error i = h.error i)) := by
  constructor
  · intro hdis
    simp [CutHistogram, hdis]
  · intro hen
    refine ⟨?_, ?_, ?_⟩
    · intro i h1 h2
      by_cases hlo : lo < -997
      · simp only [CutHistogram, if_neg hen, if_pos hlo]
        rw [setBinsZero_content, setBinsZero_error, if_pos ⟨h1, h2⟩, if_pos ⟨h1, h2⟩]
        exact ⟨rfl, rfl⟩
      · simp only [CutHistogram, if_neg hen, if_neg hlo]
        rw [setBinsZero_content, setBinsZero_error, setBinsZero_content, setBinsZero_error]
        constructor
        · split
          · rfl
          · rw [if_pos ⟨h1, h2⟩]
        · split
          · rfl
          · rw [if_pos ⟨h1, h2⟩]
    · intro hlo i h1 h2
      simp only [CutHistogram, if_neg hen, if_neg hlo]
      rw [setBinsZero_content, setBinsZero_error, FindBin_setBinsZero,
        if_pos ⟨h1, h2⟩, if_pos ⟨h1, h2⟩]
      exact ⟨rfl, rfl⟩
    · intro hlo i hlt
      simp only [CutHistogram, if_neg hen, if_pos hlo]
      have hc : ¬ (h.FindBin hi ≤ i ∧ i ≤ (h.nbins : ℤ)) := by
        intro hc
        omega
      rw [setBinsZero_content, setBinsZero_error, if_neg hc, if_neg hc]
      exact ⟨rfl, rfl⟩

/-- C2, witness for the amended theorem: on a concrete histogram,
a disabled high bound leaves everything untouched; an enabled high
bound below the axis zeroes every bin; an additionally enabled low
bound at or above the axis keeps them zeroed; a high bound above the
axis together with a disabled low bound preserves every real bin. -/
theorem c2_witness :
    (CutHistogram exHist2 (-1000) 5).content 2 = exHist2.content 2 ∧
    (CutHistogram exHist2 (-1) (-1000)).content 1 = 0 ∧
    (CutHistogram exHist2 (-1) 5).content 3 = 0 ∧
    (CutHistogram exHist2 5 (-1000)).content 1 = exHist2.content 1 := by
  refine ⟨?_, ?_, ?_, ?_⟩
  · rw [(c2_amended exHist2 (-1000) 5).1 (by decide)]
  · exact ((c2_amended exHist2 (-1) (-1000)).2 (by decide)).1 1 (by decide) (by decide) |>.1
  · exact (((c2_amended exHist2 (-1) 5).2 (by decide)).2.1 (by decide) 3 (by decide)
      (by decide)).1
  · exact (((c2_amended exHist2 5 (-1000)).2 (by decide)).2.2 (by decide) 1 (by decide)).1

/-! ## C3: CutGraph -/

/-- C3, counterexample.  With both bounds enabled but overlapping
(high bound 0 below low bound 10), the single point at x = 5 is
counted by both sides; the code then empties the graph, while the
claimed count formula demands 1 - 1 - 1 = -1 points. -/
theorem c3_counterexample :
    ¬ ((0 : ℚ) < -997) ∧ ¬ ((10 : ℚ) < -997) ∧
    CutGraph [((5 : ℚ), (0 : ℚ))] 0 10 = [] ∧
    ¬ ((CutGraph [((5 : ℚ), (0 : ℚ))] 0 10).length : ℤ)
        = (([((5 : ℚ), (0 : ℚ))].length : ℤ)
          - (([((5 : ℚ), (0 : ℚ))].filter (fun p => (0 : ℚ) < p.1)).length : ℤ)
          - (([((5 : ℚ), (0 : ℚ))].filter (fun p => p.1 < (10 : ℚ))).length : ℤ)) := by
  refine ⟨by decide, by decide, by decide, by decide⟩

/-- C3 (amended): for enabled bounds, whenever the points counted
above the high bound and below the low bound together do not exceed
the point count (in particular whenever low ≤ high, where the two sets
are disjoint), the resulting point count is the original count minus
both, and the surviving points are a sublist of the original sequence
(their relative order is preserved). -/
theorem c3_amended (ps : List (ℚ × ℚ)) (hi lo : ℚ)
    (hhi : ¬ hi < -997) (hlo : ¬ lo < -997)
    (hcount : (ps.filter (fun p => hi < p.1)).length
        + (ps.filter (fun p => p.1 < lo)).length ≤ ps.length) :
    ((CutGraph ps hi lo).length : ℤ)
      = (ps.length : ℤ) - ((ps.filter (fun p => hi < p.1)).length : ℤ)
        - ((ps.filter (fun p => p.1 < lo)).length : ℤ) ∧
    (CutGraph ps hi lo).Sublist ps := by
  have hfh : (ps.filter (fun p => decide (¬ hi < -997 ∧ hi < p.1)))
      = ps.filter (fun p => hi < p.1) := by
    apply List.filter_congr
    intro p _
    simp [hhi]
  have hfl : (ps.filter (fun p => decide (¬ lo < -997 ∧ p.1 < lo)))
      = ps.filter (fun p => p.1 < lo) := by
    apply List.filter_congr
    intro p _
    simp [hlo]
  have hg : CutGraph ps hi lo
      = (ps.take (ps.length - (ps.filter (fun p => hi < p.1)).length)).drop
          ((ps.filter (fun p => p.1 < lo)).length) := by
    rw [CutGraph]
    simp only [hfh, hfl]
    rw [removeLastK_eq_take, removeFirstK_eq_drop]
  constructor
  · rw [hg]
    have h1 : (ps.filter (fun p => hi < p.1)).length ≤ ps.length :=
      List.length_filter_le _ _
    simp only [List.length_drop, List.length_take]
    omega
  · rw [hg]
    exact ((List.take _ _).drop_sublist _).trans (ps.take_sublist _)

/-- C3, witness: three points with bounds (7, 3); the point at 9 is
above the high bound and the point at 1 below the low bound, so two
points are removed and the middle point survives in order. -/
theorem c3_witness :
    ((CutGraph [((1 : ℚ), (0 : ℚ)), (5, 0), (9, 0)] 7 3).length : ℤ)
      = ((3 : ℤ) : ℤ)
        - (([((1 : ℚ), (0 : ℚ)), (5, 0), (9, 0)].filter (fun p => (7 : ℚ) < p.1)).length : ℤ)
        - (([((1 : ℚ), (0 : ℚ)), (5, 0), (9, 0)].filter (fun p => p.1 < (3 : ℚ))).length : ℤ) ∧
    (CutGraph [((1 : ℚ), (0 : ℚ)), (5, 0), (9, 0)] 7 3).Sublist
      [((1 : ℚ), (0 : ℚ)), (5, 0), (9, 0)] := by
  have := c3_amended [((1 : ℚ), (0 : ℚ)), (5, 0), (9, 0)] 7 3
    (by decide) (by decide) (by decide)
  exact ⟨this.1, this.2⟩

/-! ## String and default-list helper lemmas for the data loop -/

theorem strAppend_empty (s : String) : s ++ "" = s := by
  cases s with
  | mk l => exact congrArg String.mk (List.append_nil l)

theorem strEmpty_append (s : String) : "" ++ s = s := rfl

theorem getD_nonneg (l : List ℤ) (hl : ∀ c ∈ l, 0 ≤ c) (n : ℕ) : 0 ≤ l.getD n 0 := by
  rw [List.getD_eq_getElem?_getD]
  rcases h : l[n]? with _ | c
  · exact le_refl 0
  · exact hl c (List.getElem?_mem h)

theorem scEmpty_none : strContains "" "none" = false := by decide

theorem scEmpty_hist : strContains "" "hist" = false := by decide

theorem scEmpty_band : strContains "" "band" = false := by decide

theorem scEmpty_boxes : strContains "" "boxes" = false := by decide

theorem scEP_none : strContains "EP SAME" "none" = false := by decide

theorem scEP_hist : strContains "EP SAME" "hist" = false := by decide

theorem scEP_band : strContains "EP SAME" "band" = false := by decide

theorem scEP_boxes : strContains "EP SAME" "boxes" = false := by decide

theorem scSAME_boxes : strContains " SAME" "boxes" = false := by decide

theorem GetDefaultColor_nonneg (st : PlotStyle) (hnn : NonnegDefaults st) (i : ℤ) :
    0 ≤ st.GetDefaultColor i :=
  getD_nonneg _ hnn.1 _

theorem GetDefaultMarker_nonneg (st : PlotStyle) (hnn : NonnegDefaults st) (i : ℤ) :
    0 ≤ st.GetDefaultMarker i :=
  getD_nonneg _ hnn.2 _

theorem defaultColorsFrom_succ (st : PlotStyle) (i : ℤ) (n : ℕ) :
    defaultColorsFrom st i (n + 1)
      = st.GetDefaultColor i :: defaultColorsFrom st (i + 1) n := by
  unfold defaultColorsFrom
  rw [List.range_succ_eq_map, List.map_cons, List.map_map]
  congr 1
  · norm_num
  · apply List.map_congr_left
    intro j _
    simp only [Function.comp_apply]
    congr 1
    push_cast
    ring

theorem defaultColorsFrom_zero (st : PlotStyle) (i : ℤ) :
    defaultColorsFrom st i 0 = [] := rfl

/-! ## Single-iteration equations of the data loop -/

theorem dataStep_cleanHist (st : PlotStyle) (s : LoopState) (d : SeriesSpec)
    (hd : CleanHist d) (hnn : NonnegDefaults st)
    (hop : s.drawingOptions = "" ∨ s.drawingOptions = "EP SAME") :
    dataStep st s d =
      { dataIndex := s.dataIndex + 1
        drawingOptions := "EP SAME"
        prims := s.prims ++ [Primitive.histP d.name s.drawingOptions
          (st.GetDefaultColor s.dataIndex) (st.GetDefaultMarker s.dataIndex)]
        lables := s.lables
        legendEntries := s.legendEntries
        errorStyles := s.errorStyles
        view := s.view
        nContours := s.nContours
        log := s.log } := by
  obtain ⟨ht, h2, hf, hc, hs, ho, hl⟩ := hd
  have hcn : ¬ st.GetDefaultColor s.dataIndex < 0 :=
    not_lt.mpr (GetDefaultColor_nonneg st hnn _)
  have hmn : ¬ st.GetDefaultMarker s.dataIndex < 0 :=
    not_lt.mpr (GetDefaultMarker_nonneg st hnn _)
  rcases hop with h | h <;>
  simp [dataStep, histBranch, ht, h2, hf, hc, hs, ho, hl, hcn, hmn, h, finishSeries,
    strAppend_empty, scEmpty_none, scEmpty_hist, scEmpty_band, scEmpty_boxes,
    scEP_none, scEP_hist, scEP_band, scEP_boxes]

theorem dataStep_negColorHist (st : PlotStyle) (s : LoopState) (d : SeriesSpec)
    (hnn : NonnegDefaults st)
    (ht : d.type = "hist") (h2 : d.is2D = false) (hf : d.found = true)
    (hcneg : d.color < 0) (hs : d.style = 0)
    (ho : d.drawingOptions = "") (hl : d.lable = "")
    (hop : s.drawingOptions = "EP SAME") :
    dataStep st s d =
      { dataIndex := s.dataIndex + d.color + 1
        drawingOptions := "EP SAME"
        prims := s.prims ++ [Primitive.histP d.name "EP SAME"
          (st.GetDefaultColor (s.dataIndex + d.color)) (st.GetDefaultMarker s.dataIndex)]
        lables := s.lables
        legendEntries := s.legendEntries
        errorStyles := s.errorStyles
        view := s.view
        nContours := s.nContours
        log := s.log } := by
  have hc0 : ¬ d.color = 0 := by omega
  have hmn : ¬ st.GetDefaultMarker s.dataIndex < 0 :=
    not_lt.mpr (GetDefaultMarker_nonneg st hnn _)
  simp [dataStep, histBranch, ht, h2, hf, hc0, hs, ho, hl, hcneg, hmn, hop, finishSeries,
    strAppend_empty, scEP_none, scEP_hist, scEP_band, scEP_boxes]

theorem dataStep_firstRatio1D (st : PlotStyle) (s : LoopState) (d : SeriesSpec)
    (hd : CleanRatio1D d) (hnn : NonnegDefaults st)
    (hidx : s.dataIndex = 0) (hop : s.drawingOptions = "") :
    dataStep st s d =
      { dataIndex := 2
        drawingOptions := "EP SAME"
        prims := s.prims ++ [Primitive.dummyAxisP d.name, Primitive.reflineP "1" 1 2,
          Primitive.ratioP d.name d.denomName " SAME"
            (st.GetDefaultColor 1) (st.GetDefaultMarker 1)]
        lables := s.lables
        legendEntries := s.legendEntries
        errorStyles := s.errorStyles
        view := s.view
        nContours := s.nContours
        log := s.log } := by
  obtain ⟨ht, h2, hf, hdf, hc, hs, ho, hl⟩ := hd
  have hcn : ¬ st.GetDefaultColor 0 < 0 :=
    not_lt.mpr (GetDefaultColor_nonneg st hnn 0)
  have hmn : ¬ st.GetDefaultMarker 0 < 0 :=
    not_lt.mpr (GetDefaultMarker_nonneg st hnn 0)
  simp [dataStep, ratioBranch, ht, h2, hf, hdf, hc, hs, ho, hl, hcn, hmn, hidx, hop,
    finishSeries, strAppend_empty, scSAME_boxes]

theorem dataStep_laterRatio1D (st : PlotStyle) (s : LoopState) (d : SeriesSpec)
    (hd : CleanRatio1D d) (hnn : NonnegDefaults st)
    (hidx : 1 ≤ s.dataIndex) (hop : s.drawingOptions = "EP SAME") :
    dataStep st s d =
      { dataIndex := s.dataIndex + 1
        drawingOptions := "EP SAME"
        prims := s.prims ++ [Primitive.ratioP d.name d.denomName "EP SAME"
          (st.GetDefaultColor s.dataIndex) (st.GetDefaultMarker s.dataIndex)]
        lables := s.lables
        legendEntries := s.legendEntries
        errorStyles := s.errorStyles
        view := s.view
        nContours := s.nContours
        log := s.log } := by
  obtain ⟨ht, h2, hf, hdf, hc, hs, ho, hl⟩ := hd
  have hcn : ¬ st.GetDefaultColor s.dataIndex < 0 :=
    not_lt.mpr (GetDefaultColor_nonneg st hnn _)
  have hmn : ¬ st.GetDefaultMarker s.dataIndex < 0 :=
    not_lt.mpr (GetDefaultMarker_nonneg st hnn _)
  have hne : ¬ s.dataIndex = 0 := by omega
  simp [dataStep, ratioBranch, ht, h2, hf, hdf, hc, hs, ho, hl, hcn, hmn, hne, hop,
    finishSeries, strAppend_empty, scEP_boxes]

theorem dataStep_ratio2D (st : PlotStyle) (s : LoopState) (d : SeriesSpec)
    (hnn : NonnegDefaults st)
    (ht : d.type = "ratio") (h2 : d.is2D = true) (hf : d.found = true)
    (hdf : d.denomFound = true) (hc : d.color = 0) (hs : d.style = 0)
    (ho : d.drawingOptions = "") (hl : d.lable = "")
    (hop : s.drawingOptions = "")
    (hb : strContains (" " ++ st.default2DStyle) "boxes" = false) :
    dataStep st s d =
      { dataIndex := s.dataIndex + 1
        drawingOptions := "EP SAME"
        prims := s.prims ++ [Primitive.ratioP d.name d.denomName
          (" " ++ st.default2DStyle)
          (st.GetDefaultColor s.dataIndex) (st.GetDefaultMarker s.dataIndex)]
        lables := s.lables
        legendEntries := s.legendEntries
        errorStyles := s.errorStyles
        view := some ratioViewAngles
        nContours := s.nContours
        log := s.log } := by
  have hcn : ¬ st.GetDefaultColor s.dataIndex < 0 :=
    not_lt.mpr (GetDefaultColor_nonneg st hnn _)
  have hmn : ¬ st.GetDefaultMarker s.dataIndex < 0 :=
    not_lt.mpr (GetDefaultMarker_nonneg st hnn _)
  simp [dataStep, ratioBranch, ht, h2, hf, hdf, hc, hs, ho, hl, hcn, hmn, hop, hb,
    finishSeries, strAppend_empty]

/-! ## Loop invariants of the data loop -/

theorem histPrimsFrom_map_color (st : PlotStyle) :
    ∀ (l : List SeriesSpec) (i : ℤ),
      (histPrimsFrom st i l).map primColorD = defaultColorsFrom st i l.length := by
  intro l
  induction l with
  | nil => intro i; rfl
  | cons d ds ih =>
    intro i
    rw [histPrimsFrom, List.map_cons, ih, List.length_cons, defaultColorsFrom_succ]
    rfl

theorem histRun_state (st : PlotStyle) (hnn : NonnegDefaults st) :
    ∀ (l : List SeriesSpec), (∀ d ∈ l, CleanHist d) →
    ∀ s : LoopState, s.drawingOptions = "EP SAME" →
      List.foldl (dataStep st) s l =
        { dataIndex := s.dataIndex + l.length
          drawingOptions := "EP SAME"
          prims := s.prims ++ histPrimsFrom st s.dataIndex l
          lables := s.lables
          legendEntries := s.legendEntries
          errorStyles := s.errorStyles
          view := s.view
          nContours := s.nContours
          log := s.log } := by
  intro l
  induction l with
  | nil =>
    intro _ s hop
    cases s
    simp_all [histPrimsFrom]
  | cons d ds ih =>
    intro hcl s hop
    have hd := hcl d (List.mem_cons_self d ds)
    have hds : ∀ x ∈ ds, CleanHist x := fun x hx => hcl x (List.mem_cons_of_mem d hx)
    rw [List.foldl_cons, dataStep_cleanHist st s d hd hnn (Or.inr hop), ih hds _ rfl]
    rw [hop]
    simp only [LoopState.mk.injEq, histPrimsFrom, List.append_assoc, List.cons_append,
      List.singleton_append, List.nil_append, List.length_cons, and_true, true_and]
    omega

theorem ratioRun_state (st : PlotStyle) (hnn : NonnegDefaults st) :
    ∀ (l : List SeriesSpec), (∀ d ∈ l, CleanRatio1D d) →
    ∀ s : LoopState, 1 ≤ s.dataIndex → s.drawingOptions = "EP SAME" →
      List.foldl (dataStep st) s l =
        { dataIndex := s.dataIndex + l.length
          drawingOptions := "EP SAME"
          prims := s.prims ++ ratioPrimsFrom st s.dataIndex l
          lables := s.lables
          legendEntries := s.legendEntries
          errorStyles := s.errorStyles
          view := s.view
          nContours := s.nContours
          log := s.log } := by
  intro l
  induction l with
  | nil =>
    intro _ s _ hop
    cases s
    simp_all [ratioPrimsFrom]
  | cons d ds ih =>
    intro hcl s hidx hop
    have hd := hcl d (List.mem_cons_self d ds)
    have hds : ∀ x ∈ ds, CleanRatio1D x := fun x hx => hcl x (List.mem_cons_of_mem d hx)
    rw [List.foldl_cons, dataStep_laterRatio1D st s d hd hnn hidx hop,
      ih hds _ (by dsimp only; omega) rfl]
    simp only [LoopState.mk.injEq, ratioPrimsFrom, List.append_assoc, List.cons_append,
      List.singleton_append, List.nil_append, List.length_cons, and_true, true_and]
    omega

theorem histBranch_view (st : PlotStyle) (s : LoopState) (d : SeriesSpec)
    (i c y : ℤ) (o : String) : (histBranch st s d i c y o).view = s.view := by
  simp only [histBranch]
  split
  · rfl
  · rfl

theorem ratioBranch_view (st : PlotStyle) (s : LoopState) (d : SeriesSpec)
    (i c y : ℤ) (o : String) :
    (ratioBranch st s d i c y o).view = s.view
      ∨ (ratioBranch st s d i c y o).view = some ratioViewAngles := by
  simp only [ratioBranch]
  split
  · exact Or.inl rfl
  · split
    · exact Or.inr rfl
    · exact Or.inl rfl

theorem graphBranch_view (s : LoopState) (d : SeriesSpec)
    (i c y : ℤ) (o : String) : (graphBranch s d i c y o).view = s.view := by
  simp only [graphBranch]
  split
  · rfl
  · rfl

theorem dataStep_view (st : PlotStyle) (s : LoopState) (d : SeriesSpec) :
    (dataStep st s d).view = s.view ∨ (dataStep st s d).view = some ratioViewAngles := by
  simp only [dataStep]
  split
  · exact Or.inl (histBranch_view st s d _ _ _ _)
  · split
    · exact ratioBranch_view st s d _ _ _ _
    · split
      · exact Or.inl (graphBranch_view s d _ _ _ _)
      · exact Or.inl rfl

theorem foldl_view_stays (st : PlotStyle) :
    ∀ (l : List SeriesSpec) (s : LoopState), s.view = some ratioViewAngles →
      (List.foldl (dataStep st) s l).view = some ratioViewAngles := by
  intro l
  induction l with
  | nil => intro s h; exact h
  | cons d ds ih =>
    intro s h
    rw [List.foldl_cons]
    rcases dataStep_view st s d with h1 | h1
    · exact ih _ (h1.trans h)
    · exact ih _ h1

theorem finishSeries_prims_extends (s : LoopState) (d : SeriesSpec) (idx : ℤ)
    (added : List Primitive) (mainPrim : Primitive) (nc : Option ℤ)
    (v : Option (ℚ × ℚ)) :
    ∃ t, (finishSeries s d idx added mainPrim nc v).prims = s.prims ++ t :=
  ⟨added ++ [mainPrim], by simp [finishSeries]⟩

theorem histBranch_prims_extends (st : PlotStyle) (s : LoopState) (d : SeriesSpec)
    (i c y : ℤ) (o : String) : ∃ t, (histBranch st s d i c y o).prims = s.prims ++ t := by
  simp only [histBranch]
  split
  · exact ⟨[], by simp [skipSeries]⟩
  · exact finishSeries_prims_extends _ _ _ _ _ _ _

theorem ratioBranch_prims_extends (st : PlotStyle) (s : LoopState) (d : SeriesSpec)
    (i c y : ℤ) (o : String) : ∃ t, (ratioBranch st s d i c y o).prims = s.prims ++ t := by
  simp only [ratioBranch]
  split
  · exact ⟨[], by simp [skipSeries]⟩
  · split
    · exact finishSeries_prims_extends _ _ _ _ _ _ _
    · exact finishSeries_prims_extends _ _ _ _ _ _ _

theorem graphBranch_prims_extends (s : LoopState) (d : SeriesSpec)
    (i c y : ℤ) (o : String) : ∃ t, (graphBranch s d i c y o).prims = s.prims ++ t := by
  simp only [graphBranch]
  split
  · exact ⟨[], by simp [skipSeries]⟩
  · exact finishSeries_prims_extends _ _ _ _ _ _ _

theorem dataStep_prims_extends (st : PlotStyle) (s : LoopState) (d : SeriesSpec) :
    ∃ t, (dataStep st s d).prims = s.prims ++ t := by
  simp only [dataStep]
  split
  · exact histBranch_prims_extends st s d _ _ _ _
  · split
    · exact ratioBranch_prims_extends st s d _ _ _ _
    · split
      · exact graphBranch_prims_extends s d _ _ _ _
      · exact ⟨[], by simp [skipSeries]⟩

theorem foldl_prims_extends (st : PlotStyle) :
    ∀ (l : List SeriesSpec) (s : LoopState),
      ∃ t, (List.foldl (dataStep st) s l).prims = s.prims ++ t := by
  intro l
  induction l with
  | nil => intro s; exact ⟨[], by simp⟩
  | cons d ds ih =>
    intro s
    rw [List.foldl_cons]
    obtain ⟨t1, h1⟩ := dataStep_prims_extends st s d
    obtain ⟨t2, h2⟩ := ih (dataStep st s d)
    exact ⟨t1 ++ t2, by rw [h2, h1, List.append_assoc]⟩

/-! ## C1: negative-color convention -/

/-- C1, counterexample.  Style color list [10, 20, 30, 40]; series A
and C have no explicit color, series B (draw-order index 1) has
explicit color -1.  B resolves to slot 0 as the convention says, but
the `dataIndex += color` at PlottingTools.cxx 96 persists: C, at
draw-order index 2 with no explicit color, resolves to slot 1
(color 20) instead of slot 2 (color 30) as the claim requires for
subsequent series. -/
theorem c1_counterexample :
    sC.color = 0 ∧
    (runDataLoop exStyle [sA, sB, sC]).prims.map primColorD = [10, 10, 20] ∧
    exStyle.GetDefaultColor 2 = 30 ∧
    ¬ ((20 : ℤ) = 30) := by
  refine ⟨rfl, by decide, by decide, by decide⟩

/-- C1 (amended): with an explicit color -k (1 ≤ k ≤ i) on the series
at draw-order index i = pre.length, the series itself resolves to the
default-color slot i - k, exactly as an unset series at index i - k
would; its draw position is unchanged (it is still the (i+1)-st drawn
primitive); but the index shift persists: every subsequent series
resolves from slot i - k + 1 onward, i.e. shifted down by k relative
to its position in the Data sequence. -/
theorem c1_amended (st : PlotStyle) (hnn : NonnegDefaults st)
    (pre post : List SeriesSpec) (sneg : SeriesSpec) (k : ℕ)
    (hpre : ∀ d ∈ pre, CleanHist d) (hpost : ∀ d ∈ post, CleanHist d)
    (hk1 : 1 ≤ k) (hk2 : (k : ℤ) ≤ (pre.length : ℤ))
    (ht : sneg.type = "hist") (h2 : sneg.is2D = false) (hf : sneg.found = true)
    (hc : sneg.color = -(k : ℤ)) (hs : sneg.style = 0)
    (ho : sneg.drawingOptions = "") (hl : sneg.lable = "") :
    (runDataLoop st (pre ++ sneg :: post)).prims.map primColorD
      = defaultColorsFrom st 0 pre.length
        ++ st.GetDefaultColor ((pre.length : ℤ) - k)
          :: defaultColorsFrom st ((pre.length : ℤ) - k + 1) post.length := by
  cases pre with
  | nil =>
    simp only [List.length_nil, Nat.cast_zero] at hk2
    omega
  | cons p0 pre' =>
    have hp0 := hpre p0 (List.mem_cons_self p0 pre')
    have hpre' : ∀ d ∈ pre', CleanHist d :=
      fun d hd => hpre d (List.mem_cons_of_mem p0 hd)
    have hcneg : sneg.color < 0 := by rw [hc]; omega
    have E0 : dataStep st (initLoopState none) p0
        = ⟨1, "EP SAME", [Primitive.histP p0.name "" (st.GetDefaultColor 0)
            (st.GetDefaultMarker 0)], [], [], [], none, none, []⟩ := by
      rw [dataStep_cleanHist st (initLoopState none) p0 hp0 hnn (Or.inl rfl)]
      rfl
    have E1 : List.foldl (dataStep st)
        (⟨1, "EP SAME", [Primitive.histP p0.name "" (st.GetDefaultColor 0)
            (st.GetDefaultMarker 0)], [], [], [], none, none, []⟩ : LoopState) pre'
        = ⟨1 + pre'.length, "EP SAME",
            Primitive.histP p0.name "" (st.GetDefaultColor 0) (st.GetDefaultMarker 0)
              :: histPrimsFrom st 1 pre', [], [], [], none, none, []⟩ :=
      histRun_state st hnn pre' hpre' _ rfl
    have E2 : dataStep st
        (⟨1 + pre'.length, "EP SAME",
            Primitive.histP p0.name "" (st.GetDefaultColor 0) (st.GetDefaultMarker 0)
              :: histPrimsFrom st 1 pre', [], [], [], none, none, []⟩ : LoopState) sneg
        = ⟨(1 + pre'.length : ℤ) + -(k : ℤ) + 1, "EP SAME",
            (Primitive.histP p0.name "" (st.GetDefaultColor 0) (st.GetDefaultMarker 0)
              :: histPrimsFrom st 1 pre')
              ++ [Primitive.histP sneg.name "EP SAME"
                  (st.GetDefaultColor ((1 + pre'.length : ℤ) + -(k : ℤ)))
                  (st.GetDefaultMarker (1 + pre'.length))],
            [], [], [], none, none, []⟩ := by
      rw [dataStep_negColorHist st _ sneg hnn ht h2 hf hcneg hs ho hl rfl]
      rw [hc]
    have E3 : List.foldl (dataStep st)
        (⟨(1 + pre'.length : ℤ) + -(k : ℤ) + 1, "EP SAME",
            (Primitive.histP p0.name "" (st.GetDefaultColor 0) (st.GetDefaultMarker 0)
              :: histPrimsFrom st 1 pre')
              ++ [Primitive.histP sneg.name "EP SAME"
                  (st.GetDefaultColor ((1 + pre'.length : ℤ) + -(k : ℤ)))
                  (st.GetDefaultMarker (1 + pre'.length))],
            [], [], [], none, none, []⟩ : LoopState) post
        = ⟨(1 + pre'.length : ℤ) + -(k : ℤ) + 1 + post.length, "EP SAME",
            ((Primitive.histP p0.name "" (st.GetDefaultColor 0) (st.GetDefaultMarker 0)
              :: histPrimsFrom st 1 pre')
              ++ [Primitive.histP sneg.name "EP SAME"
                  (st.GetDefaultColor ((1 + pre'.length : ℤ) + -(k : ℤ)))
                  (st.GetDefaultMarker (1 + pre'.length))])
              ++ histPrimsFrom st ((1 + pre'.length : ℤ) + -(k : ℤ) + 1) post,
            [], [], [], none, none, []⟩ :=
      histRun_state st hnn post hpost _ rfl
    rw [runDataLoop, List.cons_append, List.foldl_cons, E0, List.foldl_append, E1,
      List.foldl_cons, E2, E3]
    simp only [List.map_append, List.map_cons, List.map_nil, primColorD,
      histPrimsFrom_map_color, List.length_cons, defaultColorsFrom_succ,
      List.cons_append, List.nil_append]
    have g0 : (0 : ℤ) + 1 = 1 := by ring
    rw [g0]
    have g1 : ((pre'.length + 1 : ℕ) : ℤ) - (k : ℤ) = (1 + pre'.length : ℤ) + -(k : ℤ) := by
      push_cast
      ring
    rw [g1]
    simp [List.append_assoc, List.singleton_append]

/-- C1, witness for the amended theorem at the concrete three-series
pad [A, B(-1), C] with color list [10, 20, 30, 40]. -/
theorem c1_witness :
    (runDataLoop exStyle ([sA] ++ sB :: [sC])).prims.map primColorD
      = defaultColorsFrom exStyle 0 [sA].length
        ++ exStyle.GetDefaultColor (([sA].length : ℤ) - 1)
          :: defaultColorsFrom exStyle (([sA].length : ℤ) - 1 + 1) [sC].length :=
  c1_amended exStyle (by decide) [sA] [sC] sB 1
    (by decide) (by decide) (by decide) (by decide)
    rfl rfl rfl (by decide) rfl rfl rfl

/-! ## C4: first-ratio reference line and 2-D ratio view -/

/-- C4: when the first series of a pad is a clean 1-D ratio, the pad's
primitive list starts with the invisible axis clone and the flat
reference line TF1 with formula 1, line color kBlack = 1 and width 2,
drawn beneath the first real ratio; the first ratio itself and all
following clean ratios resolve their style from slot (position + 1),
the +1 shift coming from the `dataIndex++` inside the first-ratio
block.  When the first series is a 2-D ratio, the pad view angles are
set to (49.5, 230) instead (and stay set), and the first drawn
primitive is the ratio itself with the 2-D default style suffix and no
reference line. -/
theorem c4_ratio (st : PlotStyle) (hnn : NonnegDefaults st)
    (r0 : SeriesSpec) (rest : List SeriesSpec)
    (h0 : CleanRatio1D r0) (hrest : ∀ d ∈ rest, CleanRatio1D d)
    (s0 : SeriesSpec) (rest2 : List SeriesSpec)
    (g0 : s0.type = "ratio") (g2 : s0.is2D = true) (gf : s0.found = true)
    (gdf : s0.denomFound = true) (gc : s0.color = 0) (gs : s0.style = 0)
    (go : s0.drawingOptions = "") (gl : s0.lable = "")
    (hb : strContains (" " ++ st.default2DStyle) "boxes" = false) :
    (runDataLoop st (r0 :: rest)).prims
      = Primitive.dummyAxisP r0.name :: Primitive.reflineP "1" 1 2
        :: Primitive.ratioP r0.name r0.denomName " SAME"
             (st.GetDefaultColor 1) (st.GetDefaultMarker 1)
        :: ratioPrimsFrom st 2 rest ∧
    (runDataLoop st (s0 :: rest2)).view = some ratioViewAngles ∧
    (runDataLoop st (s0 :: rest2)).prims.head?
      = some (Primitive.ratioP s0.name s0.denomName (" " ++ st.default2DStyle)
          (st.GetDefaultColor 0) (st.GetDefaultMarker 0)) := by
  have F0 : dataStep st (initLoopState none) r0
      = ⟨2, "EP SAME", [Primitive.dummyAxisP r0.name, Primitive.reflineP "1" 1 2,
          Primitive.ratioP r0.name r0.denomName " SAME"
            (st.GetDefaultColor 1) (st.GetDefaultMarker 1)],
          [], [], [], none, none, []⟩ := by
    rw [dataStep_firstRatio1D st (initLoopState none) r0 h0 hnn rfl rfl]
    rfl
  have G0 : dataStep st (initLoopState none) s0
      = ⟨1, "EP SAME", [Primitive.ratioP s0.name s0.denomName
          (" " ++ st.default2DStyle)
          (st.GetDefaultColor 0) (st.GetDefaultMarker 0)],
          [], [], [], some ratioViewAngles, none, []⟩ := by
    rw [dataStep_ratio2D st (initLoopState none) s0 hnn g0 g2 gf gdf gc gs go gl rfl hb]
    rfl
  refine ⟨?_, ?_, ?_⟩
  · rw [runDataLoop, List.foldl_cons, F0,
      ratioRun_state st hnn rest hrest _ (by norm_num) rfl]
    simp
  · rw [runDataLoop, List.foldl_cons, G0]
    exact foldl_view_stays st rest2 _ rfl
  · rw [runDataLoop, List.foldl_cons, G0]
    obtain ⟨t, htp⟩ := foldl_prims_extends st rest2
      (⟨1, "EP SAME", [Primitive.ratioP s0.name s0.denomName
          (" " ++ st.default2DStyle)
          (st.GetDefaultColor 0) (st.GetDefaultMarker 0)],
          [], [], [], some ratioViewAngles, none, []⟩ : LoopState)
    rw [htp]
    rfl



theorem c4_witness :
    (runDataLoop exStyle (exR0 :: [exR1])).prims
      = Primitive.dummyAxisP exR0.name :: Primitive.reflineP "1" 1 2
        :: Primitive.ratioP exR0.name exR0.denomName " SAME"
             (exStyle.GetDefaultColor 1) (exStyle.GetDefaultMarker 1)
        :: ratioPrimsFrom exStyle 2 [exR1] ∧
    (runDataLoop exStyle (exR2D :: [])).view = some ratioViewAngles ∧
    (runDataLoop exStyle (exR2D :: [])).prims.head?
      = some (Primitive.ratioP exR2D.name exR2D.denomName
          (" " ++ exStyle.default2DStyle)
          (exStyle.GetDefaultColor 0) (exStyle.GetDefaultMarker 0)) :=
  c4_ratio exStyle (by decide) exR0 [exR1] (by decide) (by decide) exR2D []
    rfl rfl rfl rfl rfl rfl rfl rfl (by decide)

/-! ## MakeLegend helper lemmas -/

theorem buildEntries_getD :
    ∀ (es : List Primitive) (i0 j : ℕ) (ts errs : List String), j < es.length →
      (buildEntries es i0 ts errs).getD j ("", "")
        = (ts.getD (i0 + j) "",
          if (es.getD j (Primitive.execP "")).inheritsTF1
              || errs.getD (i0 + j) "" == "hist" then "l" else "ep") := by
  intro es
  induction es with
  | nil =>
    intro i0 j ts errs h
    simp at h
  | cons e es ih =>
    intro i0 j ts errs h
    cases j with
    | zero =>
      simp [buildEntries]
    | succ j =>
      rw [buildEntries]
      have h1 : j < es.length := by simpa using h
      have h2 : i0 + (j + 1) = (i0 + 1) + j := by omega
      simp only [List.getD_cons_succ]
      rw [ih (i0 + 1) j ts errs h1, h2]

theorem eraseBoxes_append :
    ∀ (bs l : List Primitive), (∀ b ∈ bs, b ∉ l) → eraseBoxes (l ++ bs) bs = l := by
  intro bs
  induction bs with
  | nil =>
    intro l _
    simp [eraseBoxes]
  | cons b bs ih =>
    intro l h
    have hb : b ∉ l := h b (List.mem_cons_self b bs)
    have hbs : ∀ x ∈ bs, x ∉ l := fun x hx => h x (List.mem_cons_of_mem b hx)
    rw [eraseBoxes, List.erase_append_right (b :: bs) hb, List.erase_cons_head]
    exact ih l hbs

theorem sizing_acc (be : Backend) (lbox : LegendBoxSpec) (entries : List Primitive)
    (total : ℕ) (hT : lbox.title = "") :
    ∀ (ts : List String) (s : SizingState),
      ∃ δ : List String,
        (List.foldl (sizingStep be lbox entries total) s ts).outTitles
          = s.outTitles ++ δ ∧
        (List.foldl (sizingStep be lbox entries total) s ts).heightMax
          = List.foldl (fun m t => max m (be.measure t).2) s.heightMax δ ∧
        δ.length = ts.length := by
  intro ts
  induction ts with
  | nil =>
    intro s
    exact ⟨[], by simp, by simp, rfl⟩
  | cons t ts ih =>
    intro s
    rw [List.foldl_cons]
    obtain ⟨δ, hA, hB, hL⟩ := ih (sizingStep be lbox entries total s t)
    have ho : (sizingStep be lbox entries total s t).outTitles
        = s.outTitles ++ [substLegendText be (entries.get? (s.iLegend - 1)) t] := by
      simp [sizingStep, hT]
    have hhm : (sizingStep be lbox entries total s t).heightMax
        = max s.heightMax
            (be.measure (substLegendText be (entries.get? (s.iLegend - 1)) t)).2 := by
      simp [sizingStep, hT]
    refine ⟨substLegendText be (entries.get? (s.iLegend - 1)) t :: δ, ?_, ?_, by simp [hL]⟩
    · rw [hA, ho]
      simp
    · rw [hB, hhm]
      rfl

theorem foldl_max_from (f : String → ℕ) (c : ℕ) :
    ∀ (δ : List String), (∀ t ∈ δ, f t = c) →
      List.foldl (fun m t => max m (f t)) c δ = c := by
  intro δ
  induction δ with
  | nil => intro _; rfl
  | cons t ts ih =>
    intro h
    rw [List.foldl_cons, h t (List.mem_cons_self t ts), max_self]
    exact ih fun x hx => h x (List.mem_cons_of_mem t hx)

theorem foldl_max_const (f : String → ℕ) (c : ℕ) :
    ∀ (δ : List String), δ ≠ [] → (∀ t ∈ δ, f t = c) →
      List.foldl (fun m t => max m (f t)) 0 δ = c := by
  intro δ hne h
  cases δ with
  | nil => exact absurd rfl hne
  | cons t ts =>
    rw [List.foldl_cons, h t (List.mem_cons_self t ts), Nat.zero_max]
    exact foldl_max_from f c ts fun x hx => h x (List.mem_cons_of_mem t hx)

/-! ## C7: legend entry draw style -/

/-- C7, counterexample.  An entry whose backing object is not a TF1
and whose recorded drawing-option string is "histo" — which contains
"hist" but is not equal to it — receives the point-with-error style
"ep": the source (PlottingTools.cxx 651) compares `errorStyles[i] ==
"hist"` with equality, not containment, refuting the claimed
iff-with-contains. -/
theorem c7_counterexample :
    strContains "histo" "hist" = true ∧
    (MakeLegendModel exBackend exGeom exLegendFixed []
        [Primitive.histP "A" "EP" 10 5] ["lab"] ["histo"]).entries
      = [("lab", "ep")] ∧
    ¬ ("ep" = "l") := by
  refine ⟨by decide, rfl, by decide⟩

/-- C7 (amended): a legend entry's effective draw style is the line
style l if and only if the backing object is a TF1 or the recorded
drawing-option string is exactly hist; otherwise it is ep. -/
theorem c7_amended (be : Backend) (geom : PadGeom) (lbox : LegendBoxSpec)
    (padPrims entries : List Primitive) (titles errs : List String)
    (i : ℕ) (hi : i < entries.length) :
    ((MakeLegendModel be geom lbox padPrims entries titles errs).entries.getD
        i ("", "")).2 = "l"
      ↔ ((entries.getD i (Primitive.execP "")).inheritsTF1 = true
          ∨ errs.getD i "" = "hist") := by
  have e1 : (MakeLegendModel be geom lbox padPrims entries titles errs).entries
      = buildEntries entries 0
          ((if lbox.title ≠ "" then titles ++ [lbox.title] else titles).foldl
            (sizingStep be lbox entries
              (if lbox.title ≠ "" then titles ++ [lbox.title] else titles).length)
            ⟨0, 1, 0, List.replicate lbox.nColumns 0, 0, []⟩).outTitles errs := rfl
  rw [e1, buildEntries_getD entries 0 i _ errs hi]
  simp only [Nat.zero_add]
  split
  next h =>
    simp only [Bool.or_eq_true, beq_iff_eq, List.getD_eq_getElem?_getD] at h
    simp [List.getD_eq_getElem?_getD, h]
  next h =>
    simp only [Bool.or_eq_true, beq_iff_eq, List.getD_eq_getElem?_getD] at h
    push_neg at h
    simp [List.getD_eq_getElem?_getD, h.1, h.2]

/-- C7, witness for the amended theorem: a TF1 entry gets the line
style. -/
theorem c7_witness :
    ((MakeLegendModel exBackend exGeom exLegendFixed []
        [Primitive.reflineP "1" 1 2] ["ln"] [""]).entries.getD 0 ("", "")).2 = "l"
      ↔ (([Primitive.reflineP "1" 1 2].getD 0 (Primitive.execP "")).inheritsTF1 = true
          ∨ [""].getD 0 "" = "hist") :=
  c7_amended exBackend exGeom exLegendFixed [] [Primitive.reflineP "1" 1 2]
    ["ln"] [""] 0 (by decide)

/-! ## C8: legend height formula -/

/-- C8: for a single-column legend with no title whose n entry labels
all measure the same pixel height, the computed total legend height in
NDC equals (n + 0.5 (n+1)) times the per-row NDC height h =
heightPixel / padHeightPixel, and in particular 5 h for n = 3. -/
theorem c8_legend_height (be : Backend) (geom : PadGeom) (lbox : LegendBoxSpec)
    (padPrims entries : List Primitive) (titles errs : List String) (hpx : ℕ)
    (hT : lbox.title = "") (hC : lbox.nColumns = 1) (hne : titles ≠ [])
    (hh : ∀ t ∈ (MakeLegendModel be geom lbox padPrims entries titles errs).substTitles,
      (be.measure t).2 = hpx) :
    (MakeLegendModel be geom lbox padPrims entries titles errs).totalHeightNDC
      = ((entries.length : ℚ) + (1 / 2) * ((entries.length : ℚ) + 1))
        * ((hpx : ℚ) / (geom.padHeightPixel : ℚ)) ∧
    (entries.length = 3 →
      (MakeLegendModel be geom lbox padPrims entries titles errs).totalHeightNDC
        = 5 * ((hpx : ℚ) / (geom.padHeightPixel : ℚ))) := by
  have hTA : (if lbox.title ≠ "" then titles ++ [lbox.title] else titles) = titles := by
    simp [hT]
  have hNE : (if lbox.title ≠ "" then entries.length + 1 else entries.length)
      = entries.length := by
    simp [hT]
  have e1 : (MakeLegendModel be geom lbox padPrims entries titles errs).totalHeightNDC
      = (((if lbox.title ≠ "" then entries.length + 1 else entries.length : ℕ) : ℚ)
          + (1 / 2) * (((if lbox.title ≠ "" then entries.length + 1
              else entries.length : ℕ) : ℚ) + 1))
        * ((((if lbox.title ≠ "" then titles ++ [lbox.title] else titles).foldl
              (sizingStep be lbox entries
                (if lbox.title ≠ "" then titles ++ [lbox.title] else titles).length)
              ⟨0, 1, 0, List.replicate lbox.nColumns 0, 0, []⟩).heightMax : ℚ)
            / (geom.padHeightPixel : ℚ))
        / (lbox.nColumns : ℚ) := rfl
  have e2 : (MakeLegendModel be geom lbox padPrims entries titles errs).substTitles
      = ((if lbox.title ≠ "" then titles ++ [lbox.title] else titles).foldl
          (sizingStep be lbox entries
            (if lbox.title ≠ "" then titles ++ [lbox.title] else titles).length)
          ⟨0, 1, 0, List.replicate lbox.nColumns 0, 0, []⟩).outTitles := rfl
  obtain ⟨δ, hA, hB, hL⟩ := sizing_acc be lbox entries
    titles.length hT titles
    ⟨0, 1, 0, List.replicate lbox.nColumns 0, 0, []⟩
  rw [hTA] at e1 e2
  rw [e2, hA] at hh
  simp only [List.nil_append] at hh
  have hδne : δ ≠ [] := by
    intro hd
    rw [hd] at hL
    exact hne (List.length_eq_zero.mp hL.symm)
  have hmax : (titles.foldl (sizingStep be lbox entries titles.length)
      ⟨0, 1, 0, List.replicate lbox.nColumns 0, 0, []⟩).heightMax = hpx := by
    rw [hB]
    exact foldl_max_const (fun t => (be.measure t).2) hpx δ hδne hh
  have hmain : (MakeLegendModel be geom lbox padPrims entries titles errs).totalHeightNDC
      = ((entries.length : ℚ) + (1 / 2) * ((entries.length : ℚ) + 1))
        * ((hpx : ℚ) / (geom.padHeightPixel : ℚ)) := by
    rw [e1, hNE, hmax, hC]
    norm_num
  refine ⟨hmain, ?_⟩
  intro h3
  rw [hmain, h3]
  norm_num

/-- C8, witness: three labels, constant 12-pixel measured height on a
600-pixel-high pad. -/
theorem c8_witness :
    (MakeLegendModel exBackend exGeom exLegendFixed []
        [Primitive.histP "A" "" 1 1, Primitive.histP "B" "" 2 2,
          Primitive.histP "C" "" 3 3] ["a", "b", "c"] ["", "", ""]).totalHeightNDC
      = ((3 : ℚ) + (1 / 2) * ((3 : ℚ) + 1)) * ((12 : ℚ) / ((600 : ℤ) : ℚ)) ∧
    (([Primitive.histP "A" "" 1 1, Primitive.histP "B" "" 2 2,
        Primitive.histP "C" "" 3 3] : List Primitive).length = 3 →
      (MakeLegendModel exBackend exGeom exLegendFixed []
          [Primitive.histP "A" "" 1 1, Primitive.histP "B" "" 2 2,
            Primitive.histP "C" "" 3 3] ["a", "b", "c"] ["", "", ""]).totalHeightNDC
        = 5 * ((12 : ℚ) / ((600 : ℤ) : ℚ))) := by
  have h := c8_legend_height exBackend exGeom exLegendFixed []
    [Primitive.histP "A" "" 1 1, Primitive.histP "B" "" 2 2,
      Primitive.histP "C" "" 3 3] ["a", "b", "c"] ["", "", ""] 12
    rfl rfl (by decide) (fun t _ => rfl)
  exact ⟨h.1, fun _ => h.2 rfl⟩

/-! ## C5: auto-placement fallback and margin-box removal -/

/-- C5: for an auto-placed legend box (either position component
unset), the four temporary margin-exclusion boxes are always removed
again, so the pad primitive list MakeLegend leaves behind equals the
one it was given; and whenever the placement search finds no free
spot, the placement warning is set and the legend rectangle is still
created, anchored at the deterministic fallback corner (the NDC
position of the data-axis rectangle's upper-left corner inset by the
margin plus one tick length). -/
theorem c5_legend_fallback (be : Backend) (geom : PadGeom) (lbox : LegendBoxSpec)
    (padPrims entries : List Primitive) (titles errs : List String)
    (hauto : lbox.x = none ∨ lbox.y = none)
    (hmb : ∀ b ∈ marginBoxes geom, b ∉ padPrims) :
    (MakeLegendModel be geom lbox padPrims entries titles errs).padPrims = padPrims ∧
    ((legendAutoSearch be geom lbox padPrims entries titles).1 = false →
      (MakeLegendModel be geom lbox padPrims entries titles errs).warned = true ∧
      (MakeLegendModel be geom lbox padPrims entries titles errs).rx1
        = fallbackX geom ∧
      (MakeLegendModel be geom lbox padPrims entries titles errs).ry2
        = fallbackY geom ∧
      (MakeLegendModel be geom lbox padPrims entries titles errs).ry1
        = fallbackY geom
          - (MakeLegendModel be geom lbox padPrims entries titles errs).totalHeightNDC ∧
      (MakeLegendModel be geom lbox padPrims entries titles errs).rx2
        = fallbackX geom
          + (MakeLegendModel be geom lbox padPrims entries titles errs).totalWidthNDC) := by
  have hA : (lbox.x.isNone || lbox.y.isNone) = true := by
    rcases hauto with h | h <;> simp [h]
  have hEB : eraseBoxes (padPrims ++ marginBoxes geom) (marginBoxes geom) = padPrims :=
    eraseBoxes_append (marginBoxes geom) padPrims hmb
  constructor
  · simp only [MakeLegendModel, hA, eq_self_iff_true, if_true]
    split <;> exact hEB
  · intro hsf
    simp only [MakeLegendModel, hA, eq_self_iff_true, if_true, hsf,
      Bool.false_eq_true, if_false]
    exact ⟨trivial, trivial, trivial, trivial, trivial⟩

/-- C5, witness: a backend whose PlaceBox never succeeds, one drawn
histogram, auto-placement. -/
theorem c5_witness :
    (MakeLegendModel exBackend exGeom exLegendAuto [Primitive.histP "A" "" 1 1]
        [Primitive.histP "A" "" 1 1] ["a"] [""]).padPrims
      = [Primitive.histP "A" "" 1 1] ∧
    ((legendAutoSearch exBackend exGeom exLegendAuto [Primitive.histP "A" "" 1 1]
        [Primitive.histP "A" "" 1 1] ["a"]).1 = false →
      (MakeLegendModel exBackend exGeom exLegendAuto [Primitive.histP "A" "" 1 1]
          [Primitive.histP "A" "" 1 1] ["a"] [""]).warned = true ∧
      (MakeLegendModel exBackend exGeom exLegendAuto [Primitive.histP "A" "" 1 1]
          [Primitive.histP "A" "" 1 1] ["a"] [""]).rx1 = fallbackX exGeom ∧
      (MakeLegendModel exBackend exGeom exLegendAuto [Primitive.histP "A" "" 1 1]
          [Primitive.histP "A" "" 1 1] ["a"] [""]).ry2 = fallbackY exGeom ∧
      (MakeLegendModel exBackend exGeom exLegendAuto [Primitive.histP "A" "" 1 1]
          [Primitive.histP "A" "" 1 1] ["a"] [""]).ry1
        = fallbackY exGeom
          - (MakeLegendModel exBackend exGeom exLegendAuto [Primitive.histP "A" "" 1 1]
              [Primitive.histP "A" "" 1 1] ["a"] [""]).totalHeightNDC ∧
      (MakeLegendModel exBackend exGeom exLegendAuto [Primitive.histP "A" "" 1 1]
          [Primitive.histP "A" "" 1 1] ["a"] [""]).rx2
        = fallbackX exGeom
          + (MakeLegendModel exBackend exGeom exLegendAuto [Primitive.histP "A" "" 1 1]
              [Primitive.histP "A" "" 1 1] ["a"] [""]).totalWidthNDC) :=
  c5_legend_fallback exBackend exGeom exLegendAuto [Primitive.histP "A" "" 1 1]
    [Primitive.histP "A" "" 1 1] ["a"] [""] (Or.inl rfl)
    (by intro b hb; simp [marginBoxes, exGeom] at hb; rcases hb with h | h | h | h <;>
      simp [h])

/-! ## Label bookkeeping of the data loop -/

theorem finishSeries_lables (s : LoopState) (d : SeriesSpec) (idx : ℤ)
    (added : List Primitive) (mainPrim : Primitive) (nc : Option ℤ)
    (v : Option (ℚ × ℚ)) (h : d.lable = "") :
    (finishSeries s d idx added mainPrim nc v).lables = s.lables := by
  simp [finishSeries, h]

theorem histBranch_lables (st : PlotStyle) (s : LoopState) (d : SeriesSpec)
    (i c y : ℤ) (o : String) (h : d.lable = "") :
    (histBranch st s d i c y o).lables = s.lables := by
  simp only [histBranch]
  split
  · simp [skipSeries]
  · exact finishSeries_lables _ _ _ _ _ _ _ h

theorem ratioBranch_lables (st : PlotStyle) (s : LoopState) (d : SeriesSpec)
    (i c y : ℤ) (o : String) (h : d.lable = "") :
    (ratioBranch st s d i c y o).lables = s.lables := by
  simp only [ratioBranch]
  split
  · simp [skipSeries]
  · split
    · exact finishSeries_lables _ _ _ _ _ _ _ h
    · exact finishSeries_lables _ _ _ _ _ _ _ h

theorem graphBranch_lables (s : LoopState) (d : SeriesSpec)
    (i c y : ℤ) (o : String) (h : d.lable = "") :
    (graphBranch s d i c y o).lables = s.lables := by
  simp only [graphBranch]
  split
  · simp [skipSeries]
  · exact finishSeries_lables _ _ _ _ _ _ _ h

theorem dataStep_lables (st : PlotStyle) (s : LoopState) (d : SeriesSpec)
    (h : d.lable = "") : (dataStep st s d).lables = s.lables := by
  simp only [dataStep]
  split
  · exact histBranch_lables st s d _ _ _ _ h
  · split
    · exact ratioBranch_lables st s d _ _ _ _ h
    · split
      · exact graphBranch_lables s d _ _ _ _ h
      · simp [skipSeries]

theorem foldl_lables_keep (st : PlotStyle) :
    ∀ (l : List SeriesSpec), (∀ d ∈ l, d.lable = "") →
      ∀ s : LoopState, (List.foldl (dataStep st) s l).lables = s.lables := by
  intro l
  induction l with
  | nil => intro _ s; rfl
  | cons d ds ih =>
    intro h s
    rw [List.foldl_cons, ih (fun x hx => h x (List.mem_cons_of_mem d hx)),
      dataStep_lables st s d (h d (List.mem_cons_self d ds))]

/-! ## C9: the box loop under an empty label list -/

theorem textRange_succ (ti n : ℕ) :
    (List.range (n + 1)).map (fun j : ℕ => Primitive.textPrimP (ti + j))
      = Primitive.textPrimP ti
        :: (List.range n).map (fun j : ℕ => Primitive.textPrimP (ti + 1 + j)) := by
  rw [List.range_succ_eq_map, List.map_cons, List.map_map]
  refine congrArg₂ List.cons ?_ ?_
  · show Primitive.textPrimP (ti + 0) = Primitive.textPrimP ti
    rw [Nat.add_zero]
  · refine List.map_congr_left ?_
    intro j hj
    show Primitive.textPrimP (ti + (j + 1)) = Primitive.textPrimP (ti + 1 + j)
    exact congrArg Primitive.textPrimP (by omega)

theorem processBoxes_no_lables (be : Backend) (geom : PadGeom)
    (legendEntries : List Primitive) (errorStyles : List String) :
    ∀ (boxes : List BoxSpec) (prims : List Primitive) (li ti : ℕ),
      processBoxes be geom [] legendEntries errorStyles boxes prims li ti
        = prims
          ++ (List.range ((boxes.takeWhile (fun b => ! b.isLegend)).length)).map
              (fun j : ℕ => Primitive.textPrimP (ti + j)) := by
  intro boxes
  induction boxes with
  | nil =>
    intro prims li ti
    simp [processBoxes]
  | cons b bs ih =>
    intro prims li ti
    cases b with
    | legendB lb =>
      simp [processBoxes, List.takeWhile_cons, BoxSpec.isLegend]
    | textB t =>
      rw [processBoxes.eq_def]
      simp only []
      rw [ih]
      simp [List.takeWhile_cons, BoxSpec.isLegend, textRange_succ,
        List.append_assoc, List.singleton_append]

/-- C9: if no drawn series in the pad produced a non-empty label, the
collected label list is empty, and the box loop breaks at the first
legend box: exactly the text boxes strictly before it are rendered,
while that legend box and every box after it in the pad's box list —
text boxes included — is not. -/
theorem c9_box_loop (be : Backend) (geom : PadGeom) (st : PlotStyle)
    (series : List SeriesSpec) (boxes : List BoxSpec) (prims : List Primitive)
    (li ti : ℕ) (h : ∀ d ∈ series, d.lable = "") :
    (runDataLoop st series).lables = [] ∧
    processBoxes be geom (runDataLoop st series).lables
        (runDataLoop st series).legendEntries (runDataLoop st series).errorStyles
        boxes prims li ti
      = prims
        ++ (List.range ((boxes.takeWhile (fun b => ! b.isLegend)).length)).map
            (fun j : ℕ => Primitive.textPrimP (ti + j)) := by
  have h0 : (runDataLoop st series).lables = [] := by
    rw [runDataLoop, foldl_lables_keep st series h (initLoopState none)]
    rfl
  rw [h0]
  exact ⟨rfl, processBoxes_no_lables be geom _ _ boxes prims li ti⟩

/-- C9, witness: one unlabeled histogram series; box list text box,
legend box, text box: only the first text box is rendered. -/
theorem c9_witness :
    (runDataLoop exStyle [sA]).lables = [] ∧
    processBoxes exBackend exGeom (runDataLoop exStyle [sA]).lables
        (runDataLoop exStyle [sA]).legendEntries
        (runDataLoop exStyle [sA]).errorStyles
        [BoxSpec.textB "t", BoxSpec.legendB exLegendAuto, BoxSpec.textB "u"] [] 1 1
      = []
        ++ (List.range ((([BoxSpec.textB "t", BoxSpec.legendB exLegendAuto,
              BoxSpec.textB "u"].takeWhile (fun b => ! b.isLegend)).length))).map
            (fun j : ℕ => Primitive.textPrimP (1 + j)) :=
  c9_box_loop exBackend exGeom exStyle [sA]
    [BoxSpec.textB "t", BoxSpec.legendB exLegendAuto, BoxSpec.textB "u"] [] 1 1
    (by decide)

/-! ## C6: the pad-count guard of GeneratePlot -/

/-- C6: if the style provides fewer pads than the plot requires, the
render aborts before any pad is created: the returned canvas is null,
the mismatch is reported exactly once, and the global style registers
are left untouched. -/
theorem c6_pad_mismatch (st : PlotStyle) (p : PlotModel) (g : Globals)
    (h : st.nPads < p.requiredPads) :
    GeneratePlot st p g = (none, [mismatchMsg st p], g) := by
  simp [GeneratePlot, h]

/-- C6, witness: a one-pad style rendering a plot that requires two
pads. -/
theorem c6_witness :
    GeneratePlot exStyle { name := "pl", requiredPads := 2, data := fun _ => [] }
        ⟨7⟩
      = (none,
        [mismatchMsg exStyle { name := "pl", requiredPads := 2, data := fun _ => [] }],
        ⟨7⟩) :=
  c6_pad_mismatch exStyle { name := "pl", requiredPads := 2, data := fun _ => [] }
    ⟨7⟩ (by decide)

/-! ## C10: Ratio::UnsetRangeX -/

/-- C10: `Ratio::UnsetRangeX` leaves the X display range untouched,
clears the Y display range, and coincides with `Ratio::UnsetRangeY`,
because Plot.h 489 forwards it to `Data::UnsetRangeY`. -/
theorem c10_unsetRangeX (d : DataState) :
    (Ratio.UnsetRangeX d).rangeX = d.rangeX ∧
    (Ratio.UnsetRangeX d).rangeY = ⟨none, none⟩ ∧
    Ratio.UnsetRangeX d = Ratio.UnsetRangeY d :=
  ⟨rfl, rfl, rfl⟩

end PlottingFramework
